import Mathlib

/-!
# WiFiExt: configuration store, provisioning gates and NAT lifecycle

A shallow embedding of `src/WiFiExt/src/main.cpp`.  Bytes (`uint8_t`, `char`)
are natural numbers below 256; every C operation that truncates to eight bits
carries an explicit `% 256`.
-/

namespace WiFiExt

/-! ## CRC-8 (main.cpp lines 65-81) -/

/-- One pass of the body of the `for (bit = 8; bit > 0; --bit)` loop of `crc8`:
`if (crc & 0x80) crc = (crc << 1) ^ 0x31; else crc <<= 1;` on a `uint8_t`. -/
def crc8Shift (crc : Nat) : Nat :=
  if crc &&& 0x80 ≠ 0 then ((crc <<< 1) ^^^ 0x31) % 256 else (crc <<< 1) % 256

/-- The `for` loop of the one-byte `crc8`, `bit` counting down from its argument to 0. -/
def crc8Loop : Nat → Nat → Nat
  | 0, crc => crc
  | bit + 1, crc => crc8Loop bit (crc8Shift crc)

/-- Overload `static uint8_t crc8(uint8_t data, uint8_t crc = 0xFF)`: both parameters are
converted to `uint8_t`, `crc ^= data`, then eight shift steps. -/
def crc8 (data : Nat) (crc : Nat := 0xFF) : Nat :=
  crc8Loop 8 ((crc % 256) ^^^ (data % 256))

/-- The `while (len--)` loop of the buffer overload of `crc8`; `data` is the memory
that starts at the pointer argument (a read past its end yields 0 in the model,
no caller does that). -/
def crc8While : List Nat → Nat → Nat → Nat
  | _, 0, crc => crc
  | data, len + 1, crc => crc8While data.tail len (crc8 (data.headD 0) crc)

/-- Overload `static uint8_t crc8(const uint8_t *data, uint8_t len, uint8_t crc = 0xFF)`:
`len` is converted to `uint8_t`. -/
def crc8Buf (data : List Nat) (len : Nat) (crc : Nat := 0xFF) : Nat :=
  crc8While data (len % 256) (crc % 256)


/-! ## Configuration record and its defaults (main.cpp lines 25-36) -/

/-- Character codes of a (plain ASCII) string literal of the source. -/
def bytesOf (s : String) : List Nat := s.toList.map Char.toNat

def DEF_AUTH_NAME : List Nat := bytesOf "ESP8266"
def DEF_AUTH_PSWD : List Nat := bytesOf "6628PSE"
def DEF_USE_AUTH : Bool := true

/-- The object `config` of type `struct config_t`: five `char` arrays and one `bool`.
Every field holds the bytes of its storage; `use_auth` is the byte that stores the
`bool` (read as true when it is not 0). -/
structure config_t where
  wifi_ssid : List Nat
  wifi_pswd : List Nat
  ap_ssid : List Nat
  auth_name : List Nat
  auth_pswd : List Nat
  use_auth : Nat
  deriving DecidableEq, Repr

/-- Array sizes declared in `struct config_t`. -/
def SIZE_wifi_ssid : Nat := 32 + 1
def SIZE_wifi_pswd : Nat := 64 + 1
def SIZE_ap_ssid : Nat := 32 + 1
def SIZE_auth_name : Nat := 16 + 1
def SIZE_auth_pswd : Nat := 16 + 1

/-- Offsets of the members of `struct config_t` (all members have alignment 1). -/
def OFF_wifi_ssid : Nat := 0
def OFF_wifi_pswd : Nat := OFF_wifi_ssid + SIZE_wifi_ssid
def OFF_ap_ssid : Nat := OFF_wifi_pswd + SIZE_wifi_pswd
def OFF_auth_name : Nat := OFF_ap_ssid + SIZE_ap_ssid
def OFF_auth_pswd : Nat := OFF_auth_name + SIZE_auth_name
def OFF_use_auth : Nat := OFF_auth_pswd + SIZE_auth_pswd

/-- The value of `sizeof(config_t)`: 166. -/
def sizeof_config_t : Nat := OFF_use_auth + 1

/-- Every array member has its declared size. -/
def config_t.WellSized (c : config_t) : Prop :=
  c.wifi_ssid.length = SIZE_wifi_ssid ∧ c.wifi_pswd.length = SIZE_wifi_pswd ∧
  c.ap_ssid.length = SIZE_ap_ssid ∧ c.auth_name.length = SIZE_auth_name ∧
  c.auth_pswd.length = SIZE_auth_pswd

instance (c : config_t) : Decidable c.WellSized := by
  unfold config_t.WellSized; infer_instance

/-- The object representation `(uint8_t*)&config`: the members in declaration order. -/
def config_t.bytes (c : config_t) : List Nat :=
  c.wifi_ssid ++ c.wifi_pswd ++ c.ap_ssid ++ c.auth_name ++ c.auth_pswd ++ [c.use_auth]

/-- Every byte of the object is a `uint8_t` value. -/
def config_t.ByteValued (c : config_t) : Prop := ∀ b ∈ c.bytes, b < 256

instance (c : config_t) : Decidable c.ByteValued := by
  unfold config_t.ByteValued; infer_instance

/-- The object whose representation is the given `sizeof(config_t)` bytes. -/
def config_t.ofBytes (m : List Nat) : config_t :=
  { wifi_ssid := (m.drop OFF_wifi_ssid).take SIZE_wifi_ssid
    wifi_pswd := (m.drop OFF_wifi_pswd).take SIZE_wifi_pswd
    ap_ssid := (m.drop OFF_ap_ssid).take SIZE_ap_ssid
    auth_name := (m.drop OFF_auth_name).take SIZE_auth_name
    auth_pswd := (m.drop OFF_auth_pswd).take SIZE_auth_pswd
    use_auth := m.getD OFF_use_auth 0 }

/-- The C string that starts at a `char` pointer: the bytes before the first NUL. -/
def c_str (p : List Nat) : List Nat := p.takeWhile (fun b => b != 0)

/-- The C string read through a pointer to offset `off` of `config`, as
`config.wifi_ssid` decays to when passed to a function. -/
def config_t.cstrAt (c : config_t) (off : Nat) : List Nat := c_str (c.bytes.drop off)

/-- Overwrite `src.length` bytes of `mem` from offset `off` on. -/
def memWrite (mem : List Nat) (off : Nat) (src : List Nat) : List Nat :=
  mem.take off ++ src ++ mem.drop (off + src.length)

/-- The buffer of a C string: the bytes of the string and the terminating NUL (what
`String::c_str()` points to, and what `strcpy` stores). -/
def cstrBuf (src : List Nat) : List Nat := c_str src ++ [0]

/-- The effect of `strcpy(config.<member at off>, src)` on `config`.  `strcpy` has no
bound: it stores all of `cstrBuf src` from the member on, into the members that follow when
the string is longer than the array. -/
def strcpyInto (c : config_t) (off : Nat) (src : List Nat) : config_t :=
  config_t.ofBytes (memWrite c.bytes off (cstrBuf src))

/-- Whether `strcpy` to offset `off` stays inside the object `config`. -/
def strcpyInside (off : Nat) (src : List Nat) : Bool :=
  off + (cstrBuf src).length ≤ sizeof_config_t

/-- Call of `strcpy` to a member of `config`; `none` when it writes past the end of the object
(what lies behind `config` in memory is not part of the model). -/
def strcpy (c : config_t) (off : Nat) (src : List Nat) : Option config_t :=
  if strcpyInside off src then some (strcpyInto c off src) else none

/-- The value of `memset(&config, 0, sizeof(config_t))`. -/
def zeroConfig : config_t := config_t.ofBytes (List.replicate sizeof_config_t 0)

/-- The record the tail of `readConfig` builds (lines 95-98). -/
def defaultConfig : config_t :=
  let c1 := strcpyInto zeroConfig OFF_auth_name DEF_AUTH_NAME
  let c2 := strcpyInto c1 OFF_auth_pswd DEF_AUTH_PSWD
  { c2 with use_auth := if DEF_USE_AUTH then 1 else 0 }

/-! ## The EEPROM buffer (library `EEPROM`, used at lines 85-110) -/

/-- The RAM buffer of the `EEPROM` object, by address.  `EEPROM.begin(4096)` makes the
addresses below 4096 valid; the program uses the addresses 0 to 167 only. -/
abbrev Store := Nat → Nat

def EEPROM_SIGN : Nat := 0xA5

/-- Library call `EEPROM.read(address)`. -/
def EEPROM_read (ee : Store) (address : Nat) : Nat := ee address

/-- Library call `EEPROM.write(address, value)`, `value` converted to `uint8_t`. -/
def EEPROM_write (ee : Store) (address : Nat) (value : Nat) : Store :=
  fun a => if a = address then value % 256 else ee a

/-- Library call `EEPROM.get(address, config)`: copies `sizeof(config_t)` bytes out of the
buffer into the object. -/
def EEPROM_get (ee : Store) (address : Nat) : config_t :=
  config_t.ofBytes ((List.range sizeof_config_t).map (fun i => ee (address + i)))

/-- Library call `EEPROM.put(address, config)`: copies the `sizeof(config_t)` bytes of the object
into the buffer. -/
def EEPROM_put (ee : Store) (address : Nat) (c : config_t) : Store :=
  fun a => if address ≤ a ∧ a < address + sizeof_config_t then c.bytes.getD (a - address) 0
    else ee a

/-- Function `readConfig` (lines 85-100): the returned flag and the value left in `config`. -/
def readConfig (ee : Store) : Bool × config_t :=
  let offset := 0
  if EEPROM_read ee offset = EEPROM_SIGN then
    let crc := crc8 EEPROM_SIGN
    let offset := offset + 1
    let config := EEPROM_get ee offset
    if EEPROM_read ee (offset + sizeof_config_t)
        = crc8Buf config.bytes sizeof_config_t crc then
      (true, config)
    else (false, defaultConfig)
  else (false, defaultConfig)

/-- Function `writeConfig` (lines 102-110): `commit` is what `EEPROM.commit()` returns. -/
def writeConfig (config : config_t) (ee : Store) (commit : Bool) : Bool × Store :=
  let offset := 0
  let crc := crc8 EEPROM_SIGN
  let ee1 := EEPROM_write ee offset EEPROM_SIGN
  let offset := offset + 1
  let ee2 := EEPROM_put ee1 offset config
  let ee3 := EEPROM_write ee2 (offset + sizeof_config_t)
    (crc8Buf config.bytes sizeof_config_t crc)
  (commit, ee3)

/-! ## Device state -/

/-- The globals of the program and the state of the collaborators that the modelled
functions change.  `naptEnabled` is the NAT flag of the downstream interface
(`SOFTAP_IF`), `http` says whether the web server object exists (`http != NULL`),
`uplink` holds the arguments of the last `WiFi.begin`. -/
structure State where
  config : config_t
  eeprom : Store
  useCaptivePortal : Bool
  rebooting : Bool
  naptEnabled : Bool
  http : Bool
  uplink : Option (List Nat × List Nat)
  blinkPeriod : Nat

/-- Function `reboot` (lines 53-63): sets `rebooting` and calls `ESP.restart()`, which asks
the SDK for the restart.  The call returns to an event callback and the restart happens
later: the code after a call of `reboot` still runs, and event handlers may run before the
restart (that is what the flag `rebooting` is tested for at line 469).  Where `reboot`
is the last statement of a handler the question does not arise. -/
def reboot (s : State) : State := { s with rebooting := true }

/-! ## HTTP surface (lines 159-358) -/

/-- Request methods of the web server library. -/
inductive HTTPMethod where
  | HTTP_GET | HTTP_HEAD | HTTP_POST | HTTP_PUT | HTTP_PATCH | HTTP_DELETE | HTTP_OPTIONS
  deriving DecidableEq, Repr

/-- What the handlers read from the parsed request: method, path, `Host` header, the
form fields in order (name and value bytes), and the verdict of the library call
`http->authenticate(name, password)` for each pair of C strings. -/
structure Request where
  method : HTTPMethod
  uri : String
  hostHeader : String
  args : List (String × List Nat)
  authenticate : List Nat → List Nat → Bool

/-- What the handlers read from the rest of the device: the text of `WiFi.softAPIP()` and
the result of `EEPROM.commit()`. -/
structure Env where
  softAPIP : String
  commit : Bool

def TEXTHTML : String := "text/html"
def TEXTPLAIN : String := "text/plain"

/-- The bodies the handlers send; the HTML text itself is not modelled. -/
inductive Body where
  | empty | rootPage | stored | storeError | restarting | pageNotFound
  deriving DecidableEq, Repr

/-- A response: `http->send`/`send_P` with the status code, content type, body and the
`Location` header set before it, or the challenge of `http->requestAuthentication()`. -/
inductive Response where
  | send (code : Nat) (contentType : String) (location : Option String) (body : Body)
  | requestAuthentication
  deriving DecidableEq, Repr

/-- Function `captivePortal` (lines 162-169): the response sent when the gate stops the
request, `none` when it returns false. -/
def captivePortal (s : State) (env : Env) (req : Request) : Option Response :=
  if s.useCaptivePortal && !(req.hostHeader == env.softAPIP) then
    some (Response.send 302 TEXTPLAIN (some ("http://" ++ env.softAPIP)) Body.empty)
  else none

/-- Function `checkAuthorization` (lines 171-177): the returned flag and the response
sent, if any. -/
def checkAuthorization (s : State) (req : Request) : Bool × Option Response :=
  if (!s.useCaptivePortal) && (s.config.use_auth != 0) &&
      !(req.authenticate (s.config.cstrAt OFF_auth_name) (s.config.cstrAt OFF_auth_pswd)) then
    (false, some Response.requestAuthentication)
  else (true, none)

def WIFI_SSID_PARAM : String := "wifi_ssid"
def WIFI_PSWD_PARAM : String := "wifi_pswd"
def AP_SSID_PARAM : String := "ap_ssid"
def AUTH_NAME_PARAM : String := "auth_name"
def AUTH_PSWD_PARAM : String := "auth_pswd"
def USE_AUTH_PARAM : String := "use_auth"

/-- The two gates every handler starts with, `if (captivePortal() || (! checkAuthorization()))
return;`: the response that ends the handler, or `none` when the request passes both. -/
def gates (s : State) (env : Env) (req : Request) : Option Response :=
  match captivePortal s env req with
  | some r => some r
  | none =>
    match checkAuthorization s req with
    | (false, r) => r
    | (true, _) => none

/-- The result of a handler: the new state and the response; `none` when the handler
does not return in the model (a write past `config`, or a loop that never ends). -/
abbrev Handler := State → Env → Request → Option (State × Response)

/-- Function `handleRoot` (lines 186-278). -/
def handleRoot : Handler := fun s env req =>
  match gates s env req with
  | some r => some (s, r)
  | none => some (s, Response.send 200 TEXTHTML none Body.rootPage)

/-- The body of the `for` loop of `handleConfig` for one form field (lines 289-301). -/
def setArg (c : config_t) (name : String) (value : List Nat) : Option config_t :=
  if name = WIFI_SSID_PARAM then strcpy c OFF_wifi_ssid value
  else if name = WIFI_PSWD_PARAM then strcpy c OFF_wifi_pswd value
  else if name = AP_SSID_PARAM then strcpy c OFF_ap_ssid value
  else if name = AUTH_NAME_PARAM then strcpy c OFF_auth_name value
  else if name = AUTH_PSWD_PARAM then strcpy c OFF_auth_pswd value
  else if name = USE_AUTH_PARAM then
    some { c with use_auth := if (cstrBuf value).headD 0 = 49 then 1 else 0 }
  else some c

/-- The loop `for (uint8_t i = 0; i < http->args(); ++i)` of `handleConfig`, from the
test of its condition on: `i` is a `uint8_t`, so `++i` wraps at 256.  `none` when the fuel
runs out or a `strcpy` leaves `config`. -/
def handleConfigLoop (args : List (String × List Nat)) :
    Nat → Nat → config_t → Option config_t
  | 0, _, _ => none
  | fuel + 1, i, c =>
    if h : i < args.length then
      match setArg c (args.get ⟨i, h⟩).1 (args.get ⟨i, h⟩).2 with
      | none => none
      | some c1 => handleConfigLoop args fuel ((i + 1) % 256) c1
    else some c

/-- Function `handleConfig` (lines 280-321).  The loop gets `args.length + 1` units of
fuel: that is what it needs whenever it ends (see `handleConfigLoop_fuel` and
`handleConfigLoop_diverges`). -/
def handleConfig : Handler := fun s env req =>
  match gates s env req with
  | some r => some (s, r)
  | none =>
    let config := { s.config with use_auth := 0 }
    match handleConfigLoop req.args (req.args.length + 1) 0 config with
    | none => none
    | some config =>
      let w := writeConfig config s.eeprom env.commit
      let s1 := { s with config := config, eeprom := w.2 }
      if w.1 then some (s1, Response.send 200 TEXTHTML none Body.stored)
      else some (s1, Response.send 500 TEXTHTML none Body.storeError)

/-- Function `handleRestart` (lines 323-340): the page is sent, the listener is stopped
(`http->stop()` keeps the object) and `reboot` is called. -/
def handleRestart : Handler := fun s env req =>
  match gates s env req with
  | some r => some (s, r)
  | none => some (reboot s, Response.send 200 TEXTHTML none Body.restarting)

/-- Function `handleNotFound` (lines 342-347). -/
def handleNotFound : Handler := fun s env req =>
  match gates s env req with
  | some r => some (s, r)
  | none => some (s, Response.send 404 TEXTPLAIN none Body.pageNotFound)

/-- The routes `createWebServer` registers with `http->on` (lines 353-355), in order. -/
def routes : List (String × HTTPMethod × Handler) :=
  [("/", HTTPMethod.HTTP_GET, handleRoot),
   ("/", HTTPMethod.HTTP_POST, handleConfig),
   ("/restart", HTTPMethod.HTTP_GET, handleRestart)]

/-- The dispatch of the web server library for the handlers of `createWebServer`: the first
route whose path and method both equal those of the request, else the handler given to
`http->onNotFound` (line 356). -/
def handleClient : Handler := fun s env req =>
  match routes.find? (fun r => r.1 == req.uri && r.2.1 == req.method) with
  | some r => r.2.2 s env req
  | none => handleNotFound s env req

/-! ## The provisioning window (lines 399-408) -/

/-- Values of `enum rst_reason` of the SDK. -/
inductive rst_reason where
  | REASON_DEFAULT_RST | REASON_WDT_RST | REASON_EXCEPTION_RST | REASON_SOFT_WDT_RST
  | REASON_SOFT_RESTART | REASON_DEEP_SLEEP_AWAKE | REASON_EXT_SYS_RST
  deriving DecidableEq, Repr

def CONFIG_AP_TIMEOUT : Nat := 60000

/-- The value of `millis() - start` in `uint32_t` arithmetic, for two readings of the
millisecond counter. -/
def elapsed (now start : Nat) : Nat := (now % 2 ^ 32 + 2 ^ 32 - start % 2 ^ 32) % 2 ^ 32

/-- What one evaluation of the loop condition reads: `config`, the value of
`WiFi.softAPgetStationNum()` and the reading of `millis()`. -/
structure Sample where
  config : config_t
  stationNum : Nat
  millis : Nat

/-- The condition of the `while` loop of `startConfigAP` (lines 401-402); `*config.wifi_ssid`
is the first byte of the array. -/
def windowOpen (reason : rst_reason) (start : Nat) (x : Sample) : Bool :=
  (x.config.wifi_ssid.headD 0 == 0) || (x.config.ap_ssid.headD 0 == 0) ||
    (x.stationNum != 0) ||
    ((reason != rst_reason.REASON_SOFT_RESTART) && (elapsed x.millis start < CONFIG_AP_TIMEOUT))

/-- The `while` loop of `startConfigAP` over the successive evaluations of its condition:
the number of the evaluation at which the loop is left, `none` while it has not been left
after all the listed ones. -/
def startConfigAP (reason : rst_reason) (start : Nat) : List Sample → Option Nat
  | [] => none
  | x :: rest =>
    if windowOpen reason start x then (startConfigAP reason start rest).map (fun k => k + 1)
    else some 0

/-! ## Uplink events (lines 420-471, 488-518) -/

/-- Function `connectWiFi` (lines 420-428). -/
def connectWiFi (s : State) : State :=
  { s with uplink := some (s.config.cstrAt OFF_wifi_ssid, s.config.cstrAt OFF_wifi_pswd),
           blinkPeriod := 500 }

/-- Function `destroyWebServer` (lines 360-366). -/
def destroyWebServer (s : State) : State := { s with http := false }

/-- Function `onWiFiConnected` (lines 430-462), statement by statement.  The calls that
only configure the radio and the DHCP server (`softAPdisconnect`, `dhcps_set_dns`,
`softAPConfig`) change nothing of the state kept here.  `softAPok` is the result of
`WiFi.softAP(...)` at line 447, `naptOk` says whether `ip_napt_enable_no(SOFTAP_IF, 1)` at
line 449 returned `ERR_OK` (the flag of the interface is set exactly then), `httpOk`
whether `createWebServer()` got its object.  There is no `return` after either call of
`reboot`, so line 449 is reached also when the AP restart failed. -/
def onWiFiConnected (s : State) (softAPok naptOk httpOk : Bool) : State :=
  let s1 := destroyWebServer s
  let s2 := if !softAPok then reboot s1 else s1
  let s3 := if naptOk then { s2 with naptEnabled := true } else reboot s2
  let s4 := if httpOk then { s3 with http := true } else s3
  { s4 with blinkPeriod := 2000 }

/-- Function `onWiFiDisconnected` (lines 464-471): `ip_napt_enable_no(SOFTAP_IF, 0)` clears
the NAT flag of the downstream interface; its result is not looked at. -/
def onWiFiDisconnected (s : State) : State :=
  let s1 := { s with naptEnabled := false }
  if !s1.rebooting then connectWiFi s1 else s1

/-- The uplink events the SDK delivers to the two handlers registered in `setup`. -/
inductive Event where
  | gotIP (softAPok naptOk httpOk : Bool)
  | disconnected
  deriving DecidableEq, Repr

/-- The handler call an event leads to. -/
def deliver (s : State) : Event → State
  | Event.gotIP a n h => onWiFiConnected s a n h
  | Event.disconnected => onWiFiDisconnected s

/-- The state after a sequence of events, first event first. -/
def run (s : State) (events : List Event) : State := events.foldl deliver s

/-- The state `setup` (lines 488-518) ends in when it returns: NAT initialised but not
enabled for any interface, the portal flag cleared by `startConfigAP`, the web server of the
window still there, `connectWiFi` issued.  `config` and `eeprom` are those at the end of the
window. -/
def setup (config : config_t) (eeprom : Store) : State :=
  connectWiFi
    { config := config, eeprom := eeprom, useCaptivePortal := false, rebooting := false,
      naptEnabled := false, http := true, uplink := none, blinkPeriod := 0 }

/-! ## Reference definitions, inverses and example inputs used by the theorems -/

/-- Inverse of one shift step on bytes. -/
def crc8Unshift (y : Nat) : Nat :=
  if y % 2 = 1 then ((y ^^^ 0x31) / 2) + 128 else y / 2

/-- The record bytes of the persisted range: addresses 1 to 166. -/
def storedRecord (ee : Store) : List Nat :=
  (List.range sizeof_config_t).map (fun i => ee (1 + i))

/-- The CRC-8 of the signature byte followed by the given record bytes, from 0xFF. -/
def checksumOf (record : List Nat) : Nat :=
  (EEPROM_SIGN :: record).foldl (fun crc d => crc8 d crc) 0xFF

/-- Inverse of the eight shift steps. -/
def crc8Unloop : Nat → Nat → Nat
  | 0, y => y
  | n + 1, y => crc8Unshift (crc8Unloop n y)

/-- Reference, from the words of the specification: one clock of the bit-serial CRC
register for the polynomial x^8 + x^5 + x^4 + 1, most significant bit first.  The feedback
is the bit shifted out of the register added (mod 2) to the message bit; the register is
shifted by one place and the low part 0x31 of the polynomial is added when the feedback
is 1. -/
def crcRefBit (reg : Nat) (b : Bool) : Nat :=
  let feedback := (reg / 128 % 2 == 1) != b
  let shifted := (2 * reg) % 256
  if feedback then shifted ^^^ 0x31 else shifted

/-- The eight bits of a byte, most significant first. -/
def byteBits (d : Nat) : List Bool :=
  let v := d % 256
  [v / 128 % 2 == 1, v / 64 % 2 == 1, v / 32 % 2 == 1, v / 16 % 2 == 1,
   v / 8 % 2 == 1, v / 4 % 2 == 1, v / 2 % 2 == 1, v % 2 == 1]

/-- Reference CRC-8 of a message: the register is preset to 0xFF, the bits of the message
are clocked in byte after byte, and the register is the result (no reflection, no final
XOR). -/
def crcRef (msg : List Nat) : Nat := (msg.flatMap byteBits).foldl crcRefBit 0xFF

/-- A polynomial over GF(2) as a number (bit k is the coefficient of x^k), from its
coefficients, highest first. -/
def gf2Poly (bits : List Bool) : Nat :=
  bits.foldl (fun acc b => (acc <<< 1) ^^^ (if b then 1 else 0)) 0

/-- The product over GF(2) of the polynomial `p` and the polynomial with the coefficients
`q` (highest first): Horner scheme, addition is XOR. -/
def gf2Mul (p : Nat) (q : List Bool) : Nat :=
  q.foldl (fun acc b => (acc <<< 1) ^^^ (if b then p else 0)) 0

/-- The value of a bit list, highest bit first. -/
def bitsVal : List Bool → Nat
  | [] => 0
  | b :: bs => (if b then 2 ^ bs.length else 0) ^^^ bitsVal bs

/-- The response of the captive-portal gate. -/
def portalRedirect (env : Env) : Response :=
  Response.send 302 TEXTPLAIN (some ("http://" ++ env.softAPIP)) Body.empty

/-- The condition under which `checkAuthorization` challenges. -/
def Challenged (s : State) (req : Request) : Prop :=
  s.useCaptivePortal = false ∧ s.config.use_auth ≠ 0 ∧
    req.authenticate (s.config.cstrAt OFF_auth_name) (s.config.cstrAt OFF_auth_pswd) = false

/-- The form fields applied one after the other, first field first. -/
def applyArgs : List (String × List Nat) → config_t → Option config_t
  | [], c => some c
  | a :: rest, c =>
    match setArg c a.1 a.2 with
    | none => none
    | some c1 => applyArgs rest c1

/-- The array member a form field name stands for: its offset and its size. -/
def fieldOf (name : String) : Option (Nat × Nat) :=
  if name = WIFI_SSID_PARAM then some (OFF_wifi_ssid, SIZE_wifi_ssid)
  else if name = WIFI_PSWD_PARAM then some (OFF_wifi_pswd, SIZE_wifi_pswd)
  else if name = AP_SSID_PARAM then some (OFF_ap_ssid, SIZE_ap_ssid)
  else if name = AUTH_NAME_PARAM then some (OFF_auth_name, SIZE_auth_name)
  else if name = AUTH_PSWD_PARAM then some (OFF_auth_pswd, SIZE_auth_pswd)
  else none

/-- The value of a form field fits the member it is copied to: the string is shorter than
the array, so that the terminator fits too.  Fields of other names always fit. -/
def ValueFits (a : String × List Nat) : Prop :=
  ∀ off size, fieldOf a.1 = some (off, size) → (c_str a.2).length < size

/-- The value of the last form field named `use_auth`, if there is one. -/
def lastUseAuth : List (String × List Nat) → Option (List Nat)
  | [] => none
  | a :: rest =>
    match lastUseAuth rest with
    | some v => some v
    | none => if a.1 = USE_AUTH_PARAM then some a.2 else none

/-- The byte `handleConfig` stores in `use_auth` for a field value. -/
def useAuthByte (v : List Nat) : Nat := if (cstrBuf v).headD 0 = 49 then 1 else 0

/-- The claim's reading of the operating mode after a history of events: Bridged exactly
when the last event was a got-IP whose AP restart and NAT enable both succeeded. -/
def bridged (events : List Event) : Bool :=
  match events.getLast? with
  | some (Event.gotIP softAPok naptOk _) => softAPok && naptOk
  | _ => false

/-- The state in which the events arrive: the one `setup` ends in, with either value of
the flag `rebooting` (a restart may have been asked for by `GET /restart`). -/
def booted (config : config_t) (eeprom : Store) (rebooting : Bool) : State :=
  { setup config eeprom with rebooting := rebooting }

/-- The NAT flag after one event, from the flag before it. -/
def naptAfter (flag : Bool) : Event → Bool
  | Event.gotIP _ naptOk _ => if naptOk then true else flag
  | Event.disconnected => false

/-- A store that has never been written: every byte 0. -/
def blankStore : Store := fun _ => 0

/-- An environment in which the portal address is 192.168.4.1 and commits succeed. -/
def portalEnv : Env := { softAPIP := "192.168.4.1", commit := true }

/-- The device inside the provisioning window with the default record. -/
def provisioningState : State :=
  { config := defaultConfig, eeprom := blankStore, useCaptivePortal := true, rebooting := false,
    naptEnabled := false, http := true, uplink := none, blinkPeriod := 0 }

/-- The device after the window with the default record. -/
def operatingState : State := setup defaultConfig blankStore

/-- A request that no credentials authenticate. -/
def request (method : HTTPMethod) (uri : String) (host : String)
    (args : List (String × List Nat)) : Request :=
  { method := method, uri := uri, hostHeader := host, args := args,
    authenticate := fun _ _ => false }

/-- The record of the scenario of the specification: uplink "Home" with password
"secret123", extender "Ext1", authorization off. -/
def homeConfig : config_t :=
  { defaultConfig with
    wifi_ssid := bytesOf "Home" ++ List.replicate 29 0
    wifi_pswd := bytesOf "secret123" ++ List.replicate 56 0
    ap_ssid := bytesOf "Ext1" ++ List.replicate 29 0
    use_auth := 0 }

/-- Every string member holds a NUL within its array. -/
def config_t.Terminated (c : config_t) : Prop :=
  0 ∈ c.wifi_ssid ∧ 0 ∈ c.wifi_pswd ∧ 0 ∈ c.ap_ssid ∧ 0 ∈ c.auth_name ∧ 0 ∈ c.auth_pswd

instance (c : config_t) : Decidable c.Terminated := by
  unfold config_t.Terminated; infer_instance

/-! ## Theorems -/

set_option maxRecDepth 100000

theorem crc8Shift_lt (x : Nat) : crc8Shift x < 256 := by
  unfold crc8Shift
  split <;> exact Nat.mod_lt _ (by decide)

theorem crc8Loop_lt : ∀ (n x : Nat), x < 256 → crc8Loop n x < 256
  | 0, x, h => by simpa [crc8Loop] using h
  | n + 1, x, _ => by
    simp only [crc8Loop]
    exact crc8Loop_lt n _ (crc8Shift_lt x)

theorem xor_byte_lt (a b : Nat) : (a % 256) ^^^ (b % 256) < 256 :=
  Nat.xor_lt_two_pow (n := 8) (Nat.mod_lt _ (by decide)) (Nat.mod_lt _ (by decide))

theorem crc8_lt (d c : Nat) : crc8 d c < 256 :=
  crc8Loop_lt 8 _ (xor_byte_lt c d)

theorem crc8While_lt : ∀ (n : Nat) (data : List Nat) (c : Nat), c < 256 →
    crc8While data n c < 256
  | 0, _, c, h => by simpa [crc8While] using h
  | n + 1, data, c, _ => by
    simp only [crc8While]
    exact crc8While_lt n _ _ (crc8_lt _ _)

theorem crc8Buf_lt (data : List Nat) (len c : Nat) : crc8Buf data len c < 256 :=
  crc8While_lt _ _ _ (Nat.mod_lt _ (by decide))

theorem crc8Unshift_shift : ∀ x < 256, crc8Unshift (crc8Shift x) = x := by decide

theorem crc8Shift_inj {x y : Nat} (hx : x < 256) (hy : y < 256)
    (h : crc8Shift x = crc8Shift y) : x = y := by
  rw [← crc8Unshift_shift x hx, ← crc8Unshift_shift y hy, h]

theorem crc8Loop_inj : ∀ (n : Nat) {x y : Nat}, x < 256 → y < 256 →
    crc8Loop n x = crc8Loop n y → x = y
  | 0, x, y, _, _, h => by simpa [crc8Loop] using h
  | n + 1, x, y, hx, hy, h => by
    simp only [crc8Loop] at h
    exact crc8Shift_inj hx hy (crc8Loop_inj n (crc8Shift_lt x) (crc8Shift_lt y) h)

theorem crc8_inj_crc {d c1 c2 : Nat} (h1 : c1 < 256) (h2 : c2 < 256)
    (h : crc8 d c1 = crc8 d c2) : c1 = c2 := by
  have := crc8Loop_inj 8 (xor_byte_lt c1 d) (xor_byte_lt c2 d) h
  rw [Nat.mod_eq_of_lt h1, Nat.mod_eq_of_lt h2] at this
  exact Nat.xor_left_injective this

theorem crc8_inj_data {c d1 d2 : Nat} (h1 : d1 < 256) (h2 : d2 < 256)
    (h : crc8 d1 c = crc8 d2 c) : d1 = d2 := by
  have := crc8Loop_inj 8 (xor_byte_lt c d1) (xor_byte_lt c d2) h
  rw [Nat.mod_eq_of_lt h1, Nat.mod_eq_of_lt h2] at this
  exact Nat.xor_right_injective this

theorem sizeof_config_t_eq : sizeof_config_t = 166 := by decide

theorem bytes_length {c : config_t} (h : c.WellSized) : c.bytes.length = sizeof_config_t := by
  obtain ⟨h1, h2, h3, h4, h5⟩ := h
  simp only [config_t.bytes, List.length_append, h1, h2, h3, h4, h5, List.length_singleton]
  decide

theorem take_drop_append {α : Type} (a b c : List α) (n k : Nat) (ha : a.length = n)
    (hb : b.length = k) : ((a ++ (b ++ c)).drop n).take k = b := by
  rw [List.drop_left' ha, List.take_left' hb]

theorem ofBytes_bytes {c : config_t} (h : c.WellSized) : config_t.ofBytes c.bytes = c := by
  obtain ⟨w1, w2, w3, w4, w5, u⟩ := c
  obtain ⟨h1, h2, h3, h4, h5⟩ := h
  simp only [SIZE_wifi_ssid, SIZE_wifi_pswd, SIZE_ap_ssid, SIZE_auth_name, SIZE_auth_pswd]
    at h1 h2 h3 h4 h5
  have f1 := take_drop_append [] w1 (w2 ++ w3 ++ w4 ++ w5 ++ [u]) 0 33 rfl h1
  have f2 := take_drop_append w1 w2 (w3 ++ w4 ++ w5 ++ [u]) 33 65 h1 h2
  have f3 := take_drop_append (w1 ++ w2) w3 (w4 ++ w5 ++ [u]) 98 33
    (by simp [h1, h2]) h3
  have f4 := take_drop_append (w1 ++ w2 ++ w3) w4 (w5 ++ [u]) 131 17
    (by simp [h1, h2, h3]) h4
  have f5 := take_drop_append (w1 ++ w2 ++ w3 ++ w4) w5 [u] 148 17
    (by simp [h1, h2, h3, h4]) h5
  have f6 : (w1 ++ w2 ++ w3 ++ w4 ++ w5 ++ [u]).getD 165 0 = u := by
    rw [List.getD_eq_getElem?_getD, List.getElem?_append_right (by simp [h1, h2, h3, h4, h5])]
    simp [h1, h2, h3, h4, h5]
  simp only [List.nil_append, List.append_assoc] at f1 f2 f3 f4 f5 f6
  simp only [config_t.ofBytes, config_t.bytes, OFF_wifi_ssid, OFF_wifi_pswd, OFF_ap_ssid,
    OFF_auth_name, OFF_auth_pswd, OFF_use_auth, SIZE_wifi_ssid, SIZE_wifi_pswd, SIZE_ap_ssid,
    SIZE_auth_name, SIZE_auth_pswd, List.append_assoc, Nat.zero_add, Nat.reduceAdd]
  rw [f1, f2, f3, f4, f5, f6]

theorem ofBytes_wellSized {m : List Nat} (h : m.length = sizeof_config_t) :
    (config_t.ofBytes m).WellSized := by
  rw [sizeof_config_t_eq] at h
  simp [config_t.WellSized, config_t.ofBytes, OFF_wifi_ssid, OFF_wifi_pswd, OFF_ap_ssid,
    OFF_auth_name, OFF_auth_pswd, SIZE_wifi_ssid, SIZE_wifi_pswd, SIZE_ap_ssid,
    SIZE_auth_name, SIZE_auth_pswd, h]

theorem take_append_take_drop {α : Type} (m : List α) (n k : Nat) :
    m.take n ++ (m.drop n).take k = m.take (n + k) := by
  rw [List.take_add]

theorem bytes_ofBytes {m : List Nat} (h : m.length = sizeof_config_t) :
    (config_t.ofBytes m).bytes = m := by
  rw [sizeof_config_t_eq] at h
  have hlast : [m.getD 165 0] = (m.drop 165).take 1 := by
    have h165 : 165 < m.length := by omega
    rw [List.getD_eq_getElem?_getD, List.getElem?_eq_getElem h165,
      List.drop_eq_getElem_cons h165]
    rfl
  simp only [config_t.bytes, config_t.ofBytes, OFF_wifi_ssid, OFF_wifi_pswd, OFF_ap_ssid,
    OFF_auth_name, OFF_auth_pswd, OFF_use_auth, SIZE_wifi_ssid, SIZE_wifi_pswd, SIZE_ap_ssid,
    SIZE_auth_name, SIZE_auth_pswd, Nat.zero_add, Nat.reduceAdd, List.drop_zero, hlast]
  rw [take_append_take_drop, take_append_take_drop, take_append_take_drop,
    take_append_take_drop, take_append_take_drop]
  exact List.take_of_length_le (by omega)

theorem storedRecord_length (ee : Store) : (storedRecord ee).length = sizeof_config_t := by
  simp [storedRecord]

theorem crc8While_foldl : ∀ (data : List Nat) (c : Nat),
    crc8While data data.length c = data.foldl (fun crc d => crc8 d crc) c
  | [], c => by simp [crc8While]
  | d :: ds, c => by
    simp only [List.length_cons, crc8While, List.headD_cons, List.tail_cons, List.foldl_cons]
    exact crc8While_foldl ds _

theorem crc8_mod_crc (d c : Nat) : crc8 d (c % 256) = crc8 d c := by
  simp [crc8]

theorem crc8Buf_record {m : List Nat} (h : m.length = sizeof_config_t) :
    crc8Buf m sizeof_config_t (crc8 EEPROM_SIGN) = checksumOf m := by
  have h256 : sizeof_config_t % 256 = m.length := by rw [h]; decide
  unfold crc8Buf checksumOf
  rw [h256, Nat.mod_eq_of_lt (crc8_lt _ _), crc8While_foldl]
  rfl

theorem EEPROM_get_eq (ee : Store) : EEPROM_get ee 1 = config_t.ofBytes (storedRecord ee) := rfl

theorem readConfig_eq (ee : Store) :
    readConfig ee =
      if ee 0 = EEPROM_SIGN ∧ ee (1 + sizeof_config_t) = checksumOf (storedRecord ee) then
        (true, config_t.ofBytes (storedRecord ee))
      else (false, defaultConfig) := by
  have hcrc := crc8Buf_record (storedRecord_length ee)
  simp only [readConfig, EEPROM_read, EEPROM_get_eq, bytes_ofBytes (storedRecord_length ee),
    hcrc, Nat.zero_add]
  by_cases h0 : ee 0 = EEPROM_SIGN
  · by_cases h1 : ee (1 + sizeof_config_t) = checksumOf (storedRecord ee)
    · simp [h0, h1]
    · simp [h0, h1]
  · simp [h0]

theorem range_map_getD (l : List Nat) : (List.range l.length).map (fun i => l.getD i 0) = l := by
  apply List.ext_getElem
  · simp
  · intro i h1 h2
    simp [List.getD_eq_getElem?_getD, List.getElem?_eq_getElem h2]

theorem writeConfig_sign (c : config_t) (ee : Store) (commit : Bool) :
    (writeConfig c ee commit).2 0 = EEPROM_SIGN := by
  simp [writeConfig, EEPROM_write, EEPROM_put, sizeof_config_t_eq, EEPROM_SIGN]

theorem writeConfig_record {c : config_t} (h : c.WellSized) (ee : Store) (commit : Bool) :
    storedRecord (writeConfig c ee commit).2 = c.bytes := by
  have hl := bytes_length h
  have : storedRecord (writeConfig c ee commit).2
      = (List.range c.bytes.length).map (fun i => c.bytes.getD i 0) := by
    rw [hl]
    unfold storedRecord
    apply List.map_congr_left
    intro i hi
    have hi2 : i < sizeof_config_t := List.mem_range.mp hi
    rw [sizeof_config_t_eq] at hi2
    simp only [writeConfig, EEPROM_write, EEPROM_put, sizeof_config_t_eq]
    rw [if_neg (by omega), if_pos (by omega)]
    congr 1
    omega
  rw [this, range_map_getD]

theorem checksumOf_lt (m : List Nat) : checksumOf m < 256 := by
  unfold checksumOf
  rw [← crc8While_foldl]
  exact crc8While_lt _ _ _ (by decide)

theorem writeConfig_checksum {c : config_t} (h : c.WellSized) (ee : Store) (commit : Bool) :
    (writeConfig c ee commit).2 (1 + sizeof_config_t) = checksumOf c.bytes := by
  simp only [writeConfig, EEPROM_write, Nat.zero_add, if_true]
  rw [crc8Buf_record (bytes_length h)]
  exact Nat.mod_eq_of_lt (checksumOf_lt _)

theorem readConfig_writeConfig {c : config_t} (h : c.WellSized) (ee : Store) (commit : Bool) :
    readConfig (writeConfig c ee commit).2 = (true, c) := by
  rw [readConfig_eq, writeConfig_sign, writeConfig_record h, writeConfig_checksum h,
    ofBytes_bytes h]
  simp

theorem crc8Shift_unshift : ∀ y < 256, crc8Shift (crc8Unshift y) = y := by decide

theorem crc8Unshift_lt : ∀ y < 256, crc8Unshift y < 256 := by decide

theorem crc8Unloop_lt : ∀ (n y : Nat), y < 256 → crc8Unloop n y < 256
  | 0, y, h => by simpa [crc8Unloop] using h
  | n + 1, y, h => by
    simp only [crc8Unloop]
    exact crc8Unshift_lt _ (crc8Unloop_lt n y h)

theorem crc8Loop_succ (n x : Nat) : crc8Loop (n + 1) x = crc8Shift (crc8Loop n x) := by
  induction n generalizing x with
  | zero => rfl
  | succ k ih =>
    show crc8Loop (k + 1) (crc8Shift x) = _
    rw [ih]
    rfl

theorem crc8Loop_unloop : ∀ (n y : Nat), y < 256 → crc8Loop n (crc8Unloop n y) = y
  | 0, y, _ => rfl
  | n + 1, y, h => by
    show crc8Loop n (crc8Shift (crc8Unshift (crc8Unloop n y))) = y
    rw [crc8Shift_unshift _ (crc8Unloop_lt n y h)]
    exact crc8Loop_unloop n y h

theorem crc8_surj_crc (d : Nat) {y : Nat} (hy : y < 256) :
    ∃ c, c < 256 ∧ crc8 d c = y := by
  have hu := crc8Unloop_lt 8 y hy
  have hd : d % 256 < 256 := Nat.mod_lt _ (by decide)
  refine ⟨crc8Unloop 8 y ^^^ (d % 256), Nat.xor_lt_two_pow (n := 8) hu hd, ?_⟩
  unfold crc8
  rw [Nat.mod_eq_of_lt (Nat.xor_lt_two_pow (n := 8) hu hd), Nat.xor_assoc, Nat.xor_self,
    Nat.xor_zero]
  exact crc8Loop_unloop 8 y hy

theorem crc8_surj_data (c : Nat) {y : Nat} (hy : y < 256) :
    ∃ d, d < 256 ∧ crc8 d c = y := by
  have hu := crc8Unloop_lt 8 y hy
  have hc : c % 256 < 256 := Nat.mod_lt _ (by decide)
  refine ⟨(c % 256) ^^^ crc8Unloop 8 y, Nat.xor_lt_two_pow (n := 8) hc hu, ?_⟩
  unfold crc8
  rw [Nat.mod_eq_of_lt (Nat.xor_lt_two_pow (n := 8) hc hu), ← Nat.xor_assoc, Nat.xor_self,
    Nat.zero_xor]
  exact crc8Loop_unloop 8 y hy

theorem foldl_crc8_lt (l : List Nat) {c : Nat} (h : c < 256) :
    l.foldl (fun crc d => crc8 d crc) c < 256 := by
  rw [← crc8While_foldl]
  exact crc8While_lt _ _ _ h

theorem foldl_crc8_ne : ∀ (l : List Nat) {c1 c2 : Nat}, c1 < 256 → c2 < 256 → c1 ≠ c2 →
    l.foldl (fun crc d => crc8 d crc) c1 ≠ l.foldl (fun crc d => crc8 d crc) c2
  | [], _, _, _, _, h => by simpa using h
  | d :: ds, c1, c2, h1, h2, h => by
    simp only [List.foldl_cons]
    exact foldl_crc8_ne ds (crc8_lt _ _) (crc8_lt _ _) (fun e => h (crc8_inj_crc h1 h2 e))

theorem foldl_crc8_set_ne : ∀ (l : List Nat) (i v c : Nat) (hi : i < l.length),
    c < 256 → v < 256 → l.get ⟨i, hi⟩ < 256 → v ≠ l.get ⟨i, hi⟩ →
    (l.set i v).foldl (fun crc d => crc8 d crc) c ≠ l.foldl (fun crc d => crc8 d crc) c
  | [], _, _, _, hi, _, _, _, _ => by simp at hi
  | d :: ds, 0, v, c, _, _, hv, hd, hne => by
    simp only [List.set_cons_zero, List.foldl_cons]
    exact foldl_crc8_ne ds (crc8_lt _ _) (crc8_lt _ _)
      (fun e => hne (crc8_inj_data hv hd e))
  | d :: ds, i + 1, v, c, hi, _, hv, hd, hne => by
    simp only [List.set_cons_succ, List.foldl_cons]
    exact foldl_crc8_set_ne ds i v _ (by simpa using hi) (crc8_lt _ _) hv hd hne

theorem checksumOf_set_ne (m : List Nat) (i v : Nat) (hi : i < m.length) (hv : v < 256)
    (hd : m.get ⟨i, hi⟩ < 256) (hne : v ≠ m.get ⟨i, hi⟩) :
    checksumOf (m.set i v) ≠ checksumOf m := by
  unfold checksumOf
  simp only [List.foldl_cons]
  exact foldl_crc8_set_ne m i v _ hi (crc8_lt _ _) hv hd hne

theorem storedRecord_update_outside (ee : Store) (a v : Nat)
    (h : a = 0 ∨ sizeof_config_t < a) :
    storedRecord (Function.update ee a v) = storedRecord ee := by
  unfold storedRecord
  apply List.map_congr_left
  intro i hi
  have hi2 : i < sizeof_config_t := List.mem_range.mp hi
  rw [Function.update_noteq]
  omega

theorem storedRecord_getElem (ee : Store) (i : Nat) (h : i < (storedRecord ee).length) :
    (storedRecord ee)[i] = ee (1 + i) := by
  simp [storedRecord]

theorem storedRecord_update_inside (ee : Store) (a v : Nat) (h1 : 1 ≤ a) :
    storedRecord (Function.update ee a v) = (storedRecord ee).set (a - 1) v := by
  apply List.ext_getElem
  · simp [storedRecord]
  · intro i hi1 hi2
    rw [List.getElem_set, storedRecord_getElem]
    by_cases hia : a - 1 = i
    · have : 1 + i = a := by omega
      rw [if_pos hia, this, Function.update_same]
    · have : 1 + i ≠ a := by omega
      rw [if_neg hia, Function.update_noteq this, storedRecord_getElem]

theorem readConfig_corrupted {c : config_t} (hs : c.WellSized) (hb : c.ByteValued)
    (ee : Store) (commit : Bool) (a v : Nat) (ha : a ≤ 1 + sizeof_config_t) (hv : v < 256)
    (hne : v ≠ (writeConfig c ee commit).2 a) :
    (readConfig (Function.update (writeConfig c ee commit).2 a v)).1 = false := by
  have hsign := writeConfig_sign c ee commit
  have hrec := writeConfig_record hs ee commit
  have hsum := writeConfig_checksum hs ee commit
  have hlen := bytes_length hs
  rw [readConfig_eq]
  rw [if_neg]
  intro hcond
  obtain ⟨hc0, hc1⟩ := hcond
  by_cases h0 : a = 0
  · subst h0
    rw [Function.update_same] at hc0
    exact hne (by rw [hc0, hsign])
  · by_cases h167 : a = 1 + sizeof_config_t
    · subst h167
      rw [Function.update_same, storedRecord_update_outside _ _ _ (Or.inr (by omega)),
        hrec] at hc1
      exact hne (by rw [hc1, hsum])
    · have h1 : 1 ≤ a := by omega
      have h2 : a ≤ sizeof_config_t := by omega
      rw [Function.update_noteq (Ne.symm h167), storedRecord_update_inside _ _ _ h1,
        hrec, hsum] at hc1
      have hi : a - 1 < c.bytes.length := by omega
      have hget : (writeConfig c ee commit).2 a = c.bytes.get ⟨a - 1, hi⟩ := by
        have hi2 : a - 1 < (storedRecord (writeConfig c ee commit).2).length := by
          rw [hrec]; exact hi
        have e : c.bytes.get ⟨a - 1, hi⟩
            = (storedRecord (writeConfig c ee commit).2).get ⟨a - 1, hi2⟩ := by
          simp [hrec]
        have e1 : 1 + (a - 1) = a := by omega
        rw [e, List.get_eq_getElem, storedRecord_getElem, e1]
      exact checksumOf_set_ne c.bytes (a - 1) v hi hv (hb _ (List.get_mem _ _ _))
        (hget ▸ hne) hc1.symm

theorem shiftLeft_xor (a b n : Nat) : (a ^^^ b) <<< n = (a <<< n) ^^^ (b <<< n) := by
  apply Nat.eq_of_testBit_eq
  intro i
  simp only [Nat.testBit_shiftLeft, Nat.testBit_xor]
  cases decide (i ≥ n) <;> simp

theorem xor_mod_pow (a b n : Nat) : (a ^^^ b) % 2 ^ n = (a % 2 ^ n) ^^^ (b % 2 ^ n) := by
  apply Nat.eq_of_testBit_eq
  intro i
  simp only [Nat.testBit_mod_two_pow, Nat.testBit_xor]
  cases decide (i < n) <;> simp

theorem and_128_low : ∀ t < 128, t &&& 0x80 = 0 := by decide

theorem crc8Shift_xor_low (y t : Nat) (ht : t < 128) :
    crc8Shift (y ^^^ t) = crc8Shift y ^^^ (t <<< 1) := by
  have h1 : (y ^^^ t) &&& 0x80 = y &&& 0x80 := by
    rw [Nat.and_xor_distrib_right, and_128_low t ht, Nat.xor_zero]
  have h2 : (t <<< 1) % 2 ^ 8 = t <<< 1 := by
    apply Nat.mod_eq_of_lt
    rw [Nat.shiftLeft_eq]
    omega
  have e256 : (256 : Nat) = 2 ^ 8 := by decide
  unfold crc8Shift
  rw [h1, shiftLeft_xor, e256]
  split
  · rw [Nat.xor_assoc, Nat.xor_comm (t <<< 1), ← Nat.xor_assoc, xor_mod_pow, h2]
  · rw [xor_mod_pow, h2]

theorem crc8Shift_top : ∀ x < 256, ∀ b : Bool,
    crc8Shift (x ^^^ (if b then 128 else 0)) = crcRefBit x b := by decide

theorem crcRefBit_lt (x : Nat) (b : Bool) : crcRefBit x b < 256 := by
  unfold crcRefBit
  simp only
  split
  · exact Nat.xor_lt_two_pow (n := 8) (Nat.mod_lt _ (by decide)) (by decide)
  · exact Nat.mod_lt _ (by decide)

theorem bitsVal_lt : ∀ bs : List Bool, bitsVal bs < 2 ^ bs.length
  | [] => by simp [bitsVal]
  | b :: bs => by
    simp only [bitsVal, List.length_cons]
    apply Nat.xor_lt_two_pow
    · split
      · exact Nat.pow_lt_pow_right (by decide) (Nat.lt_succ_self _)
      · exact Nat.pos_pow_of_pos _ (by decide)
    · exact Nat.lt_trans (bitsVal_lt bs) (Nat.pow_lt_pow_right (by decide) (Nat.lt_succ_self _))

theorem crc8Loop_bits : ∀ (bs : List Bool) (x : Nat), bs.length ≤ 8 → x < 256 →
    crc8Loop bs.length (x ^^^ (bitsVal bs <<< (8 - bs.length))) = bs.foldl crcRefBit x
  | [], x, _, _ => by simp [bitsVal, crc8Loop]
  | b :: bs, x, hl, hx => by
    have hl2 : bs.length ≤ 7 := by simpa using hl
    have ht : bitsVal bs <<< (7 - bs.length) < 128 := by
      rw [Nat.shiftLeft_eq]
      have := bitsVal_lt bs
      calc bitsVal bs * 2 ^ (7 - bs.length) < 2 ^ bs.length * 2 ^ (7 - bs.length) :=
            Nat.mul_lt_mul_of_pos_right this (Nat.pos_pow_of_pos _ (by decide))
        _ = 2 ^ 7 := by rw [← Nat.pow_add]; congr 1; omega
    have hb : (if b then 2 ^ bs.length else 0) <<< (7 - bs.length)
        = if b then 128 else 0 := by
      cases b
      · simp
      · simp only [if_true, Nat.shiftLeft_eq, ← Nat.pow_add]
        have : bs.length + (7 - bs.length) = 7 := by omega
        rw [this]
    have hs : (bitsVal bs <<< (7 - bs.length)) <<< 1 = bitsVal bs <<< (8 - bs.length) := by
      rw [← Nat.shiftLeft_add]
      congr 1
      omega
    have h8 : 8 - (b :: bs).length = 7 - bs.length := by simp
    simp only [List.foldl_cons]
    rw [← crc8Loop_bits bs (crcRefBit x b) (by omega) (crcRefBit_lt x b)]
    show crc8Loop (bs.length + 1) _ = _
    simp only [crc8Loop, bitsVal]
    rw [h8, shiftLeft_xor, hb, ← Nat.xor_assoc, crc8Shift_xor_low _ _ ht, crc8Shift_top x hx,
      hs]

theorem bitsVal_byteBits : ∀ d < 256, bitsVal (byteBits d) = d := by decide

theorem byteBits_mod (d : Nat) : byteBits (d % 256) = byteBits d := by
  simp [byteBits]

theorem crc8_eq_bits (d c : Nat) : crc8 d c = (byteBits d).foldl crcRefBit (c % 256) := by
  have h := crc8Loop_bits (byteBits (d % 256)) (c % 256) (by simp [byteBits])
    (Nat.mod_lt _ (by decide))
  rw [bitsVal_byteBits _ (Nat.mod_lt _ (by decide)), byteBits_mod] at h
  rw [← h]
  rfl

theorem foldl_flatMap_bits : ∀ (msg : List Nat) (c : Nat), c < 256 →
    (msg.flatMap byteBits).foldl crcRefBit c = msg.foldl (fun crc d => crc8 d crc) c
  | [], c, _ => rfl
  | d :: ds, c, hc => by
    rw [List.flatMap_cons, List.foldl_append, List.foldl_cons, crc8_eq_bits,
      Nat.mod_eq_of_lt hc]
    have : crc8 d c < 256 := crc8_lt d c
    rw [crc8_eq_bits, Nat.mod_eq_of_lt hc] at this
    exact foldl_flatMap_bits ds _ this

theorem crc8Buf_eq_foldl (data : List Nat) (h : data.length < 256) :
    crc8Buf data data.length = data.foldl (fun crc d => crc8 d crc) 0xFF := by
  unfold crc8Buf
  rw [Nat.mod_eq_of_lt h, crc8While_foldl]

theorem crc8Buf_eq_crcRef (data : List Nat) (h : data.length < 256) :
    crc8Buf data data.length = crcRef data := by
  rw [crc8Buf_eq_foldl data h, crcRef, foldl_flatMap_bits _ _ (by decide)]

theorem crcRef_step : ∀ r < 256, ∀ b : Bool,
    (r <<< 1) ^^^ ((if b then 1 else 0) <<< 8) =
      (if ((r / 128 % 2 == 1) != b) then 0x131 else 0) ^^^ crcRefBit r b := by decide

theorem crcRef_division : ∀ (bits : List Bool) (r m a : Nat) (q : List Bool), r < 256 →
    a ^^^ (m <<< 8) = gf2Mul 0x131 q ^^^ r →
    ∃ q1 : List Bool,
      (a <<< bits.length) ^^^
        ((bits.foldl (fun acc b => (acc <<< 1) ^^^ (if b then 1 else 0)) m) <<< 8)
        = gf2Mul 0x131 q1 ^^^ bits.foldl crcRefBit r
  | [], r, m, a, q, _, h => ⟨q, by simpa using h⟩
  | b :: bs, r, m, a, q, hr, h => by
    have step : (a <<< 1) ^^^ (((m <<< 1) ^^^ (if b then 1 else 0)) <<< 8)
        = gf2Mul 0x131 (q ++ [(r / 128 % 2 == 1) != b]) ^^^ crcRefBit r b := by
      have e1 : (m <<< 1) <<< 8 = (m <<< 8) <<< 1 := by
        rw [← Nat.shiftLeft_add, ← Nat.shiftLeft_add]
      have e2 : gf2Mul 0x131 (q ++ [(r / 128 % 2 == 1) != b])
          = (gf2Mul 0x131 q <<< 1) ^^^ (if ((r / 128 % 2 == 1) != b) then 0x131 else 0) := by
        simp [gf2Mul, List.foldl_append]
      rw [shiftLeft_xor, e1, ← Nat.xor_assoc, ← shiftLeft_xor, h, shiftLeft_xor, e2,
        Nat.xor_assoc, crcRef_step r hr b, Nat.xor_assoc]
    obtain ⟨q1, hq1⟩ := crcRef_division bs (crcRefBit r b) _ (a <<< 1) _ (crcRefBit_lt r b) step
    refine ⟨q1, ?_⟩
    have e3 : a <<< (b :: bs).length = (a <<< 1) <<< bs.length := by
      rw [← Nat.shiftLeft_add, List.length_cons, Nat.add_comm]
    rw [e3]
    simpa using hq1

theorem captivePortal_some {s : State} {env : Env} {req : Request}
    (hp : s.useCaptivePortal = true) (hh : req.hostHeader ≠ env.softAPIP) :
    captivePortal s env req = some (portalRedirect env) := by
  simp [captivePortal, portalRedirect, hp, hh]

theorem gates_portal {s : State} {env : Env} {req : Request}
    (hp : s.useCaptivePortal = true) (hh : req.hostHeader ≠ env.softAPIP) :
    gates s env req = some (portalRedirect env) := by
  simp [gates, captivePortal_some hp hh]

theorem handleClient_cases (s : State) (env : Env) (req : Request) :
    handleClient s env req = handleRoot s env req ∨
    handleClient s env req = handleConfig s env req ∨
    handleClient s env req = handleRestart s env req ∨
    handleClient s env req = handleNotFound s env req := by
  unfold handleClient routes
  simp only [List.find?]
  split <;> rename_i h
  · split at h
    · cases h; exact Or.inl rfl
    · split at h
      · cases h; exact Or.inr (Or.inl rfl)
      · split at h
        · cases h; exact Or.inr (Or.inr (Or.inl rfl))
        · cases h
  · exact Or.inr (Or.inr (Or.inr rfl))

theorem handlers_stopped {s : State} {env : Env} {req : Request} {r : Response}
    (hg : gates s env req = some r) :
    handleRoot s env req = some (s, r) ∧ handleConfig s env req = some (s, r) ∧
    handleRestart s env req = some (s, r) ∧ handleNotFound s env req = some (s, r) ∧
    handleClient s env req = some (s, r) := by
  have h1 : handleRoot s env req = some (s, r) := by simp [handleRoot, hg]
  have h2 : handleConfig s env req = some (s, r) := by simp [handleConfig, hg]
  have h3 : handleRestart s env req = some (s, r) := by simp [handleRestart, hg]
  have h4 : handleNotFound s env req = some (s, r) := by simp [handleNotFound, hg]
  refine ⟨h1, h2, h3, h4, ?_⟩
  rcases handleClient_cases s env req with h | h | h | h <;> rw [h] <;> assumption

theorem checkAuthorization_cases (s : State) (req : Request) :
    (Challenged s req ∧
      checkAuthorization s req = (false, some Response.requestAuthentication)) ∨
    (¬ Challenged s req ∧ checkAuthorization s req = (true, none)) := by
  unfold checkAuthorization Challenged
  cases hp : s.useCaptivePortal <;>
    cases ha : req.authenticate (s.config.cstrAt OFF_auth_name) (s.config.cstrAt OFF_auth_pswd) <;>
    by_cases hu : s.config.use_auth = 0 <;> simp [hu]

theorem gates_challenge_iff {s : State} {env : Env} {req : Request}
    (hc : captivePortal s env req = none) :
    gates s env req = some Response.requestAuthentication ↔ Challenged s req := by
  unfold gates
  rw [hc]
  rcases checkAuthorization_cases s req with ⟨h1, h2⟩ | ⟨h1, h2⟩
  · simp [h1, h2]
  · simp [h1, h2]

theorem gates_none_or_challenge {s : State} {env : Env} {req : Request}
    (hc : captivePortal s env req = none) :
    gates s env req = some Response.requestAuthentication ∨ gates s env req = none := by
  unfold gates
  rw [hc]
  rcases checkAuthorization_cases s req with ⟨_, h2⟩ | ⟨_, h2⟩
  · simp [h2]
  · simp [h2]

theorem handler_challenge_iff {s : State} {env : Env} {req : Request}
    (hc : captivePortal s env req = none) :
    (handleRoot s env req = some (s, Response.requestAuthentication) ↔ Challenged s req) ∧
    (handleConfig s env req = some (s, Response.requestAuthentication) ↔ Challenged s req) ∧
    (handleRestart s env req = some (s, Response.requestAuthentication) ↔ Challenged s req) ∧
    (handleNotFound s env req = some (s, Response.requestAuthentication) ↔ Challenged s req) := by
  rw [← gates_challenge_iff hc]
  rcases gates_none_or_challenge hc with hg | hg
  · obtain ⟨h1, h2, h3, h4, _⟩ := handlers_stopped hg
    simp [h1, h2, h3, h4, hg]
  · refine ⟨?_, ?_, ?_, ?_⟩
    · simp [handleRoot, hg]
    · simp only [handleConfig, hg]
      constructor
      · intro h
        split at h
        · cases h
        · split at h <;> simp at h
      · intro h; cases h
    · simp [handleRestart, hg]
    · simp [handleNotFound, hg]

theorem handleConfigLoop_applyArgs (args : List (String × List Nat))
    (hn : args.length < 256) : ∀ (fuel i : Nat) (c : config_t), i ≤ args.length →
    args.length - i < fuel → handleConfigLoop args fuel i c = applyArgs (args.drop i) c
  | 0, _, _, _, hf => by omega
  | fuel + 1, i, c, hi, hf => by
    unfold handleConfigLoop
    by_cases h : i < args.length
    · rw [dif_pos h, List.drop_eq_getElem_cons h]
      simp only [applyArgs, List.get_eq_getElem]
      have hmod : (i + 1) % 256 = i + 1 := Nat.mod_eq_of_lt (by omega)
      cases hs : setArg c args[i].1 args[i].2 with
      | none => rfl
      | some c1 =>
        simp only
        rw [hmod]
        exact handleConfigLoop_applyArgs args hn fuel (i + 1) c1 (by omega) (by omega)
    · rw [dif_neg h]
      have : i = args.length := by omega
      rw [this, List.drop_length]
      rfl

theorem handleConfigLoop_fuel (args : List (String × List Nat)) (hn : args.length < 256)
    (fuel : Nat) (hf : args.length + 1 ≤ fuel) (c : config_t) :
    handleConfigLoop args fuel 0 c = handleConfigLoop args (args.length + 1) 0 c := by
  rw [handleConfigLoop_applyArgs args hn fuel 0 c (Nat.zero_le _) (by omega),
    handleConfigLoop_applyArgs args hn _ 0 c (Nat.zero_le _) (by omega)]

theorem handleConfigLoop_diverges (args : List (String × List Nat))
    (hn : 256 ≤ args.length) : ∀ (fuel i : Nat) (c : config_t), i < 256 →
    handleConfigLoop args fuel i c = none
  | 0, _, _, _ => rfl
  | fuel + 1, i, c, hi => by
    unfold handleConfigLoop
    have h : i < args.length := by omega
    rw [dif_pos h]
    cases hs : setArg c (args.get ⟨i, h⟩).1 (args.get ⟨i, h⟩).2 with
    | none => rfl
    | some c1 =>
      simp only
      exact handleConfigLoop_diverges args hn fuel _ c1 (Nat.mod_lt _ (by decide))

theorem bytes_getD_use_auth {c : config_t} (h : c.WellSized) :
    c.bytes.getD OFF_use_auth 0 = c.use_auth := by
  have := ofBytes_bytes h
  have e : (config_t.ofBytes c.bytes).use_auth = c.use_auth := by rw [this]
  exact e

theorem memWrite_length (mem src : List Nat) (off : Nat) (h : off + src.length ≤ mem.length) :
    (memWrite mem off src).length = mem.length := by
  simp only [memWrite, List.length_append, List.length_take, List.length_drop]
  omega

theorem memWrite_getD_after (mem src : List Nat) (off i : Nat)
    (h : off + src.length ≤ i) (hm : off ≤ mem.length) :
    (memWrite mem off src).getD i 0 = mem.getD i 0 := by
  have hl : (mem.take off ++ src).length = off + src.length := by
    simp only [List.length_append, List.length_take]
    omega
  simp only [List.getD_eq_getElem?_getD, memWrite]
  rw [List.getElem?_append_right (by omega), hl, List.getElem?_drop]
  congr 2
  omega

theorem strcpyInto_inside {c : config_t} (hw : c.WellSized) (off : Nat) (v : List Nat)
    (h : off + (cstrBuf v).length ≤ OFF_use_auth) :
    (strcpyInto c off v).WellSized ∧ (strcpyInto c off v).use_auth = c.use_auth := by
  have hl := bytes_length hw
  have h165 : OFF_use_auth + 1 = sizeof_config_t := rfl
  constructor
  · exact ofBytes_wellSized (by rw [memWrite_length _ _ _ (by omega), hl])
  · show (memWrite c.bytes off (cstrBuf v)).getD OFF_use_auth 0 = c.use_auth
    rw [memWrite_getD_after _ _ _ _ h (by omega), bytes_getD_use_auth hw]

theorem fieldOf_bound {name : String} {off size : Nat} (h : fieldOf name = some (off, size)) :
    off + size ≤ OFF_use_auth := by
  unfold fieldOf at h
  split at h
  · cases h; decide
  · split at h
    · cases h; decide
    · split at h
      · cases h; decide
      · split at h
        · cases h; decide
        · split at h
          · cases h; decide
          · cases h

theorem setArg_field {name : String} {off size : Nat} (h : fieldOf name = some (off, size))
    (c : config_t) (v : List Nat) : setArg c name v = strcpy c off v := by
  unfold fieldOf at h
  unfold setArg
  split at h
  · cases h; rename_i h1; rw [if_pos h1]
  · rename_i h1
    rw [if_neg h1]
    split at h
    · cases h; rename_i h2; rw [if_pos h2]
    · rename_i h2
      rw [if_neg h2]
      split at h
      · cases h; rename_i h3; rw [if_pos h3]
      · rename_i h3
        rw [if_neg h3]
        split at h
        · cases h; rename_i h4; rw [if_pos h4]
        · rename_i h4
          rw [if_neg h4]
          split at h
          · cases h; rename_i h5; rw [if_pos h5]
          · cases h

theorem setArg_other {name : String} (h : fieldOf name = none) (c : config_t) (v : List Nat) :
    setArg c name v =
      if name = USE_AUTH_PARAM then
        some { c with use_auth := if (cstrBuf v).headD 0 = 49 then 1 else 0 }
      else some c := by
  unfold fieldOf at h
  unfold setArg
  split at h
  · cases h
  · rename_i h1
    rw [if_neg h1]
    split at h
    · cases h
    · rename_i h2
      rw [if_neg h2]
      split at h
      · cases h
      · rename_i h3
        rw [if_neg h3]
        split at h
        · cases h
        · rename_i h4
          rw [if_neg h4]
          split at h
          · cases h
          · rename_i h5
            rw [if_neg h5]

theorem fieldOf_use_auth : fieldOf USE_AUTH_PARAM = none := by decide

theorem cstrBuf_head (v : List Nat) : (cstrBuf v).headD 0 = 49 ↔ v.head? = some 49 := by
  cases v with
  | nil => simp [cstrBuf, c_str]
  | cons x xs =>
    by_cases hx : x = 0
    · subst hx
      simp [cstrBuf, c_str]
    · have hb : (x != 0) = true := by simpa using hx
      simp [cstrBuf, c_str, List.takeWhile, hb]

theorem setArg_fits {c : config_t} (hw : c.WellSized) (a : String × List Nat)
    (hf : ValueFits a) :
    ∃ c1, setArg c a.1 a.2 = some c1 ∧ c1.WellSized ∧
      c1.use_auth = if a.1 = USE_AUTH_PARAM then useAuthByte a.2 else c.use_auth := by
  cases hfo : fieldOf a.1 with
  | some p =>
    obtain ⟨off, size⟩ := p
    have hlen := hf off size hfo
    have hb := fieldOf_bound hfo
    have hin : off + (cstrBuf a.2).length ≤ OFF_use_auth := by
      simp only [cstrBuf, List.length_append, List.length_singleton]
      omega
    have hne : a.1 ≠ USE_AUTH_PARAM := by
      intro e
      rw [e, fieldOf_use_auth] at hfo
      cases hfo
    have hins : strcpyInside off a.2 = true := by
      simp only [strcpyInside, decide_eq_true_eq]
      have : OFF_use_auth + 1 = sizeof_config_t := rfl
      omega
    refine ⟨strcpyInto c off a.2, ?_, (strcpyInto_inside hw off a.2 hin).1, ?_⟩
    · rw [setArg_field hfo, strcpy, if_pos hins]
    · rw [if_neg hne]
      exact (strcpyInto_inside hw off a.2 hin).2
  | none =>
    rw [setArg_other hfo]
    by_cases hu : a.1 = USE_AUTH_PARAM
    · rw [if_pos hu, if_pos hu]
      exact ⟨_, rfl, hw, rfl⟩
    · rw [if_neg hu, if_neg hu]
      exact ⟨c, rfl, hw, rfl⟩

theorem applyArgs_use_auth : ∀ (args : List (String × List Nat)) (c : config_t),
    c.WellSized → (∀ a ∈ args, ValueFits a) →
    ∃ c1, applyArgs args c = some c1 ∧ c1.WellSized ∧
      c1.use_auth = match lastUseAuth args with
        | some v => useAuthByte v
        | none => c.use_auth
  | [], c, hw, _ => ⟨c, rfl, hw, rfl⟩
  | a :: rest, c, hw, hf => by
    obtain ⟨c1, h1, hw1, hu1⟩ := setArg_fits hw a (hf a (List.mem_cons_self _ _))
    obtain ⟨c2, h2, hw2, hu2⟩ := applyArgs_use_auth rest c1 hw1
      (fun b hb => hf b (List.mem_cons_of_mem _ hb))
    refine ⟨c2, ?_, hw2, ?_⟩
    · simp only [applyArgs, h1]
      exact h2
    · rw [hu2]
      simp only [lastUseAuth]
      cases lastUseAuth rest with
      | some v => rfl
      | none =>
        simp only
        rw [hu1]
        by_cases hu : a.1 = USE_AUTH_PARAM
        · rw [if_pos hu, if_pos hu]
        · rw [if_neg hu, if_neg hu]

theorem lastUseAuth_none {args : List (String × List Nat)}
    (h : ∀ a ∈ args, a.1 ≠ USE_AUTH_PARAM) : lastUseAuth args = none := by
  induction args with
  | nil => rfl
  | cons a rest ih =>
    simp only [lastUseAuth]
    rw [ih (fun b hb => h b (List.mem_cons_of_mem _ hb))]
    simp only
    rw [if_neg (h a (List.mem_cons_self _ _))]

theorem handleConfig_result {s : State} {env : Env} {req : Request}
    (hg : gates s env req = none) (hw : s.config.WellSized) (hn : req.args.length < 256)
    (hf : ∀ a ∈ req.args, ValueFits a) :
    ∃ s1 r, handleConfig s env req = some (s1, r) ∧ s1.config.WellSized ∧
      s1.config.use_auth = match lastUseAuth req.args with
        | some v => useAuthByte v
        | none => 0 := by
  have hw0 : ({ s.config with use_auth := 0 } : config_t).WellSized := hw
  obtain ⟨c1, h1, hw1, hu1⟩ := applyArgs_use_auth req.args _ hw0 hf
  have hloop := handleConfigLoop_applyArgs req.args hn (req.args.length + 1) 0
    { s.config with use_auth := 0 } (Nat.zero_le _) (by omega)
  rw [List.drop_zero, h1] at hloop
  simp only [handleConfig, hg, hloop]
  split
  · exact ⟨_, _, rfl, hw1, hu1⟩
  · exact ⟨_, _, rfl, hw1, hu1⟩

theorem c_str_ne_nil (l : List Nat) : c_str l ≠ [] ↔ l.headD 0 ≠ 0 := by
  cases l with
  | nil => simp [c_str]
  | cons x xs =>
    by_cases hx : x = 0
    · subst hx; simp [c_str]
    · have hb : (x != 0) = true := by simpa using hx
      simp [c_str, List.takeWhile, hb, hx]

theorem windowOpen_false_iff (reason : rst_reason) (start : Nat) (x : Sample) :
    windowOpen reason start x = false ↔
      (c_str x.config.wifi_ssid ≠ [] ∧ c_str x.config.ap_ssid ≠ [] ∧ x.stationNum = 0 ∧
        (reason = rst_reason.REASON_SOFT_RESTART ∨
          CONFIG_AP_TIMEOUT ≤ elapsed x.millis start)) := by
  rw [c_str_ne_nil, c_str_ne_nil]
  unfold windowOpen
  simp only [Bool.or_eq_false_iff, Bool.and_eq_false_imp, beq_eq_false_iff_ne, ne_eq,
    bne_eq_false_iff_eq, bne_iff_ne, decide_eq_false_iff_not, Nat.not_lt, decide_eq_true_eq]
  constructor
  · rintro ⟨⟨⟨h1, h2⟩, h3⟩, h4⟩
    refine ⟨h1, h2, h3, ?_⟩
    by_cases hr : reason = rst_reason.REASON_SOFT_RESTART
    · exact Or.inl hr
    · exact Or.inr (h4 hr)
  · rintro ⟨h1, h2, h3, h4⟩
    refine ⟨⟨⟨h1, h2⟩, h3⟩, ?_⟩
    intro hr
    rcases h4 with h | h
    · exact absurd h hr
    · exact h

theorem startConfigAP_some_iff (reason : rst_reason) (start : Nat) :
    ∀ (xs : List Sample) (k : Nat), startConfigAP reason start xs = some k ↔
      ∃ h : k < xs.length, windowOpen reason start (xs.get ⟨k, h⟩) = false ∧
        ∀ (j : Nat) (hj : j < xs.length), j < k →
          windowOpen reason start (xs.get ⟨j, hj⟩) = true
  | [], k => by simp [startConfigAP]
  | x :: rest, k => by
    unfold startConfigAP
    by_cases hx : windowOpen reason start x = true
    · rw [if_pos hx]
      cases k with
      | zero =>
        simp only [Option.map_eq_some', Nat.add_eq_zero, one_ne_zero, and_false, exists_false,
          false_iff]
        rintro ⟨_, h0, _⟩
        simp only [List.get_eq_getElem, List.getElem_cons_zero] at h0
        rw [hx] at h0
        cases h0
      | succ k =>
        simp only [Option.map_eq_some', Nat.add_right_cancel_iff, exists_eq_right]
        rw [startConfigAP_some_iff reason start rest k]
        constructor
        · rintro ⟨h, h0, hall⟩
          refine ⟨by simpa using h, by simpa using h0, ?_⟩
          intro j hj hjk
          cases j with
          | zero => simpa using hx
          | succ j =>
            simp only [List.get_eq_getElem, List.getElem_cons_succ]
            exact hall j (by simpa using hj) (by omega)
        · rintro ⟨h, h0, hall⟩
          refine ⟨by simpa using h, by simpa using h0, ?_⟩
          intro j hj hjk
          have := hall (j + 1) (by simpa using hj) (by omega)
          simpa using this
    · rw [if_neg hx]
      have hx2 : windowOpen reason start x = false := by simpa using hx
      constructor
      · intro h
        cases h
        exact ⟨by simp, by simpa using hx2, fun j _ hj => by omega⟩
      · rintro ⟨h, _, hall⟩
        cases k with
        | zero => rfl
        | succ k =>
          have := hall 0 (by simp) (by omega)
          simp only [List.get_eq_getElem, List.getElem_cons_zero] at this
          rw [hx2] at this
          cases this

theorem elapsed_of_real (start t : Nat) (hs : start < 2 ^ 32) (ht : t < 2 ^ 32) :
    elapsed ((start + t) % 2 ^ 32) start = t := by
  unfold elapsed
  rw [Nat.mod_mod, Nat.mod_eq_of_lt hs]
  omega

theorem deliver_napt (s : State) (e : Event) :
    (deliver s e).naptEnabled = naptAfter s.naptEnabled e := by
  cases e with
  | gotIP a n h =>
    cases a <;> cases n <;> cases h <;> rfl
  | disconnected =>
    simp only [deliver, onWiFiDisconnected, naptAfter]
    split <;> rfl

theorem run_napt : ∀ (events : List Event) (s : State),
    (run s events).naptEnabled = events.foldl naptAfter s.naptEnabled
  | [], _ => rfl
  | e :: rest, s => by
    show (run (deliver s e) rest).naptEnabled = _
    rw [run_napt rest (deliver s e), deliver_napt]
    rfl

theorem foldl_naptAfter_iff : ∀ (events : List Event) (flag : Bool),
    events.foldl naptAfter flag = true ↔
      (∃ pre a h post, events = pre ++ Event.gotIP a true h :: post ∧
        Event.disconnected ∉ post) ∨
      (flag = true ∧ Event.disconnected ∉ events)
  | [], flag => by simp
  | e :: rest, flag => by
    rw [List.foldl_cons, foldl_naptAfter_iff rest]
    have hsplit : (∃ pre a h post, e :: rest = pre ++ Event.gotIP a true h :: post ∧
        Event.disconnected ∉ post) ↔
        ((∃ a h, e = Event.gotIP a true h) ∧ Event.disconnected ∉ rest) ∨
        (∃ pre a h post, rest = pre ++ Event.gotIP a true h :: post ∧
          Event.disconnected ∉ post) := by
      constructor
      · rintro ⟨pre, a, h, post, heq, hd⟩
        cases pre with
        | nil =>
          simp only [List.nil_append, List.cons.injEq] at heq
          exact Or.inl ⟨⟨a, h, heq.1⟩, heq.2 ▸ hd⟩
        | cons p pre =>
          simp only [List.cons_append, List.cons.injEq] at heq
          exact Or.inr ⟨pre, a, h, post, heq.2, hd⟩
      · rintro (⟨⟨a, h, he⟩, hd⟩ | ⟨pre, a, h, post, heq, hd⟩)
        · exact ⟨[], a, h, rest, by rw [he]; rfl, hd⟩
        · exact ⟨e :: pre, a, h, post, by rw [heq]; rfl, hd⟩
    rw [hsplit]
    generalize (∃ pre a h post, rest = pre ++ Event.gotIP a true h :: post ∧
      Event.disconnected ∉ post) = S
    cases e with
    | disconnected =>
      simp [naptAfter]
    | gotIP a n h =>
      have hm : Event.disconnected ∉ Event.gotIP a n h :: rest ↔
          Event.disconnected ∉ rest := by simp
      rw [hm]
      generalize (Event.disconnected ∉ rest) = N
      cases n
      all_goals (simp [naptAfter]; try tauto)

theorem foldl_naptAfter_last (events : List Event) (e : Event) (flag : Bool)
    (h : e = Event.disconnected ∨ ∃ k, e = Event.gotIP true true k) :
    (events ++ [e]).foldl naptAfter flag = bridged (events ++ [e]) := by
  rw [List.foldl_append]
  have hl : (events ++ [e]).getLast? = some e := by simp
  simp only [List.foldl_cons, List.foldl_nil, bridged, hl]
  rcases h with h | ⟨k, h⟩ <;> subst h <;> rfl

/-! ## Claims about the configuration store -/

/-- C1: for every configuration record `R` (its arrays of the declared sizes) and every
prior content of the byte store, `writeConfig` leaves the signature 0xA5 at address 0, the
bytes of the record at the addresses 1 to 166 and the CRC-8 of signature and record at
address 167; `readConfig` on that store returns true and leaves `config` equal to `R`. -/
theorem config_round_trip (R : config_t) (hR : R.WellSized) (ee : Store) (commit : Bool) :
    (writeConfig R ee commit).2 0 = 0xA5 ∧
    storedRecord (writeConfig R ee commit).2 = R.bytes ∧
    (writeConfig R ee commit).2 (1 + sizeof_config_t) = checksumOf R.bytes ∧
    readConfig (writeConfig R ee commit).2 = (true, R) :=
  ⟨writeConfig_sign R ee commit, writeConfig_record hR ee commit,
    writeConfig_checksum hR ee commit, readConfig_writeConfig hR ee commit⟩

theorem config_round_trip_witness :
    homeConfig.WellSized ∧
    readConfig (writeConfig homeConfig blankStore true).2 = (true, homeConfig) :=
  ⟨by decide, (config_round_trip homeConfig (by decide) blankStore true).2.2.2⟩

/-- C2: for every content of the byte store whose signature byte is not 0xA5 or whose
checksum byte (address 167) differs from the CRC-8 of signature and stored record,
`readConfig` returns false and leaves the fixed default record in `config`: the three
network strings empty, `auth_name` "ESP8266", `auth_pswd` "6628PSE", every other byte 0,
`use_auth` true.  In particular this is so after the checksum byte of a store produced by
`writeConfig` has been replaced by any other value. -/
theorem default_fallback (ee : Store)
    (h : ee 0 ≠ 0xA5 ∨ ee (1 + sizeof_config_t) ≠ checksumOf (storedRecord ee)) :
    readConfig ee = (false, defaultConfig) ∧
    defaultConfig =
      { wifi_ssid := List.replicate 33 0, wifi_pswd := List.replicate 65 0,
        ap_ssid := List.replicate 33 0,
        auth_name := bytesOf "ESP8266" ++ List.replicate 10 0,
        auth_pswd := bytesOf "6628PSE" ++ List.replicate 10 0,
        use_auth := 1 } ∧
    (∀ (R : config_t) (ee0 : Store) (commit : Bool) (v : Nat), R.WellSized →
      v ≠ (writeConfig R ee0 commit).2 (1 + sizeof_config_t) →
      readConfig (Function.update (writeConfig R ee0 commit).2 (1 + sizeof_config_t) v)
        = (false, defaultConfig)) := by
  refine ⟨?_, by decide, ?_⟩
  · rw [readConfig_eq, if_neg]
    rintro ⟨h0, h1⟩
    rcases h with h | h
    · exact h h0
    · exact h h1
  · intro R ee0 commit v hR hv
    rw [readConfig_eq, if_neg]
    rintro ⟨_, h1⟩
    rw [Function.update_same, storedRecord_update_outside _ _ _ (Or.inr (by omega)),
      writeConfig_record hR] at h1
    exact hv (by rw [h1, writeConfig_checksum hR])

theorem default_fallback_witness :
    blankStore 0 ≠ 0xA5 ∧ readConfig blankStore = (false, defaultConfig) :=
  ⟨by decide, (default_fallback blankStore (Or.inl (by decide))).1⟩

/-- C8: for every byte list that `crc8(data, len)` can be given (fewer than 256 bytes, `len`
is a `uint8_t`), the result with the default initial value is the reference bit-serial
CRC-8 (polynomial 0x31, register preset to 0xFF, most significant bit first, no reflection,
no final XOR); it is the fold of the one-byte `crc8` over the bytes from 0xFF; it is a
remainder of the division of the message polynomial (times x^8, preset folded in) by
x^8 + x^5 + x^4 + 1; the byte `writeConfig` stores at address 167 is that CRC of 0xA5
followed by the record bytes; and the bytes 0xBE, 0xEF give 0x92. -/
theorem crc8_is_reference_crc (data : List Nat) (h : data.length < 256) :
    crc8Buf data data.length = crcRef data ∧
    crc8Buf data data.length = data.foldl (fun crc d => crc8 d crc) 0xFF ∧
    (∃ q : List Bool,
      (0xFF <<< (8 * data.length)) ^^^ (gf2Poly (data.flatMap byteBits) <<< 8)
        = gf2Mul 0x131 q ^^^ crc8Buf data data.length) ∧
    crc8Buf data data.length < 256 ∧
    (∀ (R : config_t) (ee : Store) (commit : Bool), R.WellSized →
      (writeConfig R ee commit).2 (1 + sizeof_config_t)
        = crc8Buf (0xA5 :: R.bytes) (1 + sizeof_config_t)) ∧
    crc8Buf [0xBE, 0xEF] 2 = 0x92 := by
  refine ⟨crc8Buf_eq_crcRef data h, crc8Buf_eq_foldl data h, ?_, crc8Buf_lt _ _ _, ?_,
    by decide⟩
  · have hlen : (data.flatMap byteBits).length = 8 * data.length := by
      induction data with
      | nil => rfl
      | cons d ds ih =>
        rw [List.flatMap_cons, List.length_append, ih (by simp at h; omega)]
        simp [byteBits]
        omega
    obtain ⟨q, hq⟩ := crcRef_division (data.flatMap byteBits) 0xFF 0 0xFF [] (by decide)
      (by decide)
    refine ⟨q, ?_⟩
    rw [crc8Buf_eq_crcRef data h, ← hlen]
    exact hq
  · intro R ee commit hR
    have hl : (0xA5 :: R.bytes).length = 1 + sizeof_config_t := by
      rw [List.length_cons, bytes_length hR, Nat.add_comm]
    rw [writeConfig_checksum hR, ← hl, crc8Buf_eq_foldl _ (by rw [hl]; decide)]
    rfl

theorem crc8_is_reference_crc_witness :
    crc8Buf [0xA5, 0x00, 0x31] 3 = crcRef [0xA5, 0x00, 0x31] :=
  (crc8_is_reference_crc [0xA5, 0x00, 0x31] (by decide)).1

/-- C10: for every record `R` (arrays of the declared sizes, bytes below 256) and every
prior store, replacing any one byte of the persisted range (addresses 0 to 167) of the store
written by `writeConfig` by a different byte makes `readConfig` return false.  The one-byte
`crc8` is a bijection of the bytes in the running CRC for fixed data and in the data byte
for fixed CRC, and two byte lists of equal length that differ in exactly one position have
different `crc8`. -/
theorem single_byte_corruption_detected (R : config_t) (hs : R.WellSized) (hb : R.ByteValued)
    (ee : Store) (commit : Bool) (a v : Nat) (ha : a ≤ 1 + sizeof_config_t) (hv : v < 256)
    (hne : v ≠ (writeConfig R ee commit).2 a) :
    (readConfig (Function.update (writeConfig R ee commit).2 a v)).1 = false ∧
    (∀ d y : Nat, y < 256 → ∃! c, c < 256 ∧ crc8 d c = y) ∧
    (∀ c y : Nat, y < 256 → ∃! d, d < 256 ∧ crc8 d c = y) ∧
    (∀ (l1 l2 : List Nat) (i : Nat) (h1 : i < l1.length) (h2 : i < l2.length),
      l1.length = l2.length → l1.length < 256 → (∀ b ∈ l1, b < 256) → (∀ b ∈ l2, b < 256) →
      l1.get ⟨i, h1⟩ ≠ l2.get ⟨i, h2⟩ →
      (∀ (j : Nat) (g1 : j < l1.length) (g2 : j < l2.length), j ≠ i →
        l1.get ⟨j, g1⟩ = l2.get ⟨j, g2⟩) →
      crc8Buf l1 l1.length ≠ crc8Buf l2 l2.length) := by
  refine ⟨readConfig_corrupted hs hb ee commit a v ha hv hne, ?_, ?_, ?_⟩
  · intro d y hy
    obtain ⟨c, hc, he⟩ := crc8_surj_crc d hy
    exact ⟨c, ⟨hc, he⟩, fun c2 ⟨hc2, he2⟩ => crc8_inj_crc hc2 hc (he2.trans he.symm)⟩
  · intro c y hy
    obtain ⟨d, hd, he⟩ := crc8_surj_data c hy
    exact ⟨d, ⟨hd, he⟩, fun d2 ⟨hd2, he2⟩ => crc8_inj_data hd2 hd (he2.trans he.symm)⟩
  · intro l1 l2 i h1 h2 hlen h256 hb1 hb2 hdiff hsame
    have hset : l2 = l1.set i (l2.get ⟨i, h2⟩) := by
      apply List.ext_getElem
      · simp [hlen]
      · intro j g2 g1
        rw [List.getElem_set]
        by_cases hij : i = j
        · subst hij
          simp
        · rw [if_neg hij]
          have g1b : j < l1.length := by simpa using g1
          exact (hsame j g1b g2 (fun e => hij e.symm)).symm
    rw [crc8Buf_eq_foldl l1 h256, crc8Buf_eq_foldl l2 (hlen ▸ h256)]
    intro heq
    rw [hset] at heq
    exact foldl_crc8_set_ne l1 i (l2.get ⟨i, h2⟩) 0xFF h1 (by decide)
      (hb2 _ (List.get_mem _ _ _)) (hb1 _ (List.get_mem _ _ _)) (fun e => hdiff e.symm)
      heq.symm

theorem single_byte_corruption_detected_witness :
    (readConfig (Function.update (writeConfig defaultConfig blankStore true).2 132 0x46)).1
      = false :=
  (single_byte_corruption_detected defaultConfig (by decide) (by decide) blankStore true
    132 0x46 (by decide) (by decide) (by decide)).1

/-! ## Claims about the HTTP gates and the form -/

theorem no_challenge_of_passed {s : State} {env : Env} {req : Request}
    (hg : gates s env req = none) (s1 : State) :
    handleRoot s env req ≠ some (s1, Response.requestAuthentication) ∧
    handleConfig s env req ≠ some (s1, Response.requestAuthentication) ∧
    handleRestart s env req ≠ some (s1, Response.requestAuthentication) ∧
    handleNotFound s env req ≠ some (s1, Response.requestAuthentication) := by
  refine ⟨?_, ?_, ?_, ?_⟩
  · simp [handleRoot, hg]
  · simp only [handleConfig, hg]
    intro h
    split at h
    · cases h
    · split at h <;> simp at h
  · simp [handleRestart, hg]
  · simp [handleNotFound, hg]

theorem challenge_state {s : State} {env : Env} {req : Request} {s1 : State}
    (hc : captivePortal s env req = none) :
    (handleRoot s env req = some (s1, Response.requestAuthentication) → s1 = s) ∧
    (handleConfig s env req = some (s1, Response.requestAuthentication) → s1 = s) ∧
    (handleRestart s env req = some (s1, Response.requestAuthentication) → s1 = s) ∧
    (handleNotFound s env req = some (s1, Response.requestAuthentication) → s1 = s) := by
  rcases gates_none_or_challenge hc with hg | hg
  · obtain ⟨h1, h2, h3, h4, _⟩ := handlers_stopped hg
    rw [h1, h2, h3, h4]
    simp only [Option.some.injEq, Prod.mk.injEq, and_true]
    exact ⟨Eq.symm, Eq.symm, Eq.symm, Eq.symm⟩
  · obtain ⟨h1, h2, h3, h4⟩ := no_challenge_of_passed hg s1
    exact ⟨fun h => absurd h h1, fun h => absurd h h2, fun h => absurd h h3,
      fun h => absurd h h4⟩

theorem handleClient_root (s : State) (env : Env) {req : Request}
    (hm : req.method = HTTPMethod.HTTP_GET) (hu : req.uri = "/") :
    handleClient s env req = handleRoot s env req := by
  simp [handleClient, routes, List.find?, hm, hu]

/-- C4: while `useCaptivePortal` is true, every request whose `Host` header differs from
the portal address is answered, whatever its path and method and whichever handler it
reaches, with status 302 and `Location: http://<portal address>`, and the state (record,
store, restart flag) is left as it was. -/
theorem captive_portal_gate (s : State) (env : Env) (req : Request)
    (hp : s.useCaptivePortal = true) (hh : req.hostHeader ≠ env.softAPIP) :
    handleClient s env req
      = some (s, Response.send 302 "text/plain" (some ("http://" ++ env.softAPIP)) Body.empty) ∧
    handleRoot s env req = handleClient s env req ∧
    handleConfig s env req = handleClient s env req ∧
    handleRestart s env req = handleClient s env req ∧
    handleNotFound s env req = handleClient s env req := by
  obtain ⟨h1, h2, h3, h4, h5⟩ := handlers_stopped (gates_portal hp hh)
  rw [h1, h2, h3, h4, h5]
  exact ⟨rfl, rfl, rfl, rfl, rfl⟩

theorem captive_portal_gate_witness :
    handleClient provisioningState portalEnv
        (request HTTPMethod.HTTP_DELETE "/generate_204" "connectivitycheck.gstatic.com" [])
      = some (provisioningState,
          Response.send 302 "text/plain" (some "http://192.168.4.1") Body.empty) :=
  (captive_portal_gate provisioningState portalEnv
    (request HTTPMethod.HTTP_DELETE "/generate_204" "connectivitycheck.gstatic.com" [])
    rfl (by decide)).1

/-- C5: for each of the four handlers and every request that the captive-portal gate does
not stop, the handler answers with the authentication challenge and leaves the state as it
was if and only if the device is not in the provisioning window, `config.use_auth` is true
and the request does not authenticate with `config.auth_name` and `config.auth_pswd`; a
handler never answers with the challenge and a changed state.  With the default record of
an invalid store an unauthenticated `GET /` outside the window gets the challenge, and
inside the window no request is ever challenged. -/
theorem authorization_gate (s : State) (env : Env) (req : Request) :
    (captivePortal s env req = none →
      ((handleRoot s env req = some (s, Response.requestAuthentication) ↔ Challenged s req) ∧
       (handleConfig s env req = some (s, Response.requestAuthentication) ↔
          Challenged s req) ∧
       (handleRestart s env req = some (s, Response.requestAuthentication) ↔
          Challenged s req) ∧
       (handleNotFound s env req = some (s, Response.requestAuthentication) ↔
          Challenged s req)) ∧
      (∀ s1 : State,
        (handleRoot s env req = some (s1, Response.requestAuthentication) → s1 = s) ∧
        (handleConfig s env req = some (s1, Response.requestAuthentication) → s1 = s) ∧
        (handleRestart s env req = some (s1, Response.requestAuthentication) → s1 = s) ∧
        (handleNotFound s env req = some (s1, Response.requestAuthentication) → s1 = s))) ∧
    (∀ ee : Store, (readConfig ee).1 = false → s.config = (readConfig ee).2 →
      s.useCaptivePortal = false → req.method = HTTPMethod.HTTP_GET → req.uri = "/" →
      req.authenticate (bytesOf "ESP8266") (bytesOf "6628PSE") = false →
      handleClient s env req = some (s, Response.requestAuthentication)) ∧
    (s.useCaptivePortal = true → ∀ s1 : State,
      handleClient s env req ≠ some (s1, Response.requestAuthentication) ∧
      handleRoot s env req ≠ some (s1, Response.requestAuthentication) ∧
      handleConfig s env req ≠ some (s1, Response.requestAuthentication) ∧
      handleRestart s env req ≠ some (s1, Response.requestAuthentication) ∧
      handleNotFound s env req ≠ some (s1, Response.requestAuthentication)) := by
  refine ⟨fun hc => ⟨handler_challenge_iff hc, fun s1 => challenge_state hc⟩, ?_, ?_⟩
  · intro ee hinv hcfg hp hm hu hauth
    have hc : captivePortal s env req = none := by simp [captivePortal, hp]
    have hdef : s.config = defaultConfig := by
      rw [hcfg]
      rw [readConfig_eq] at hinv ⊢
      split
      · rename_i hcond
        rw [if_pos hcond] at hinv
        cases hinv
      · rfl
    rw [handleClient_root s env hm hu]
    apply (handler_challenge_iff hc).1.mpr
    refine ⟨hp, ?_, ?_⟩
    · rw [hdef]; decide
    · rw [hdef]
      exact hauth
  · intro hp s1
    have key : ∃ r, r ≠ Response.requestAuthentication ∧
        ((gates s env req = some r) ∨ gates s env req = none) := by
      cases hc : captivePortal s env req with
      | some r0 =>
        refine ⟨r0, ?_, Or.inl (by simp [gates, hc])⟩
        intro e
        rw [e] at hc
        unfold captivePortal at hc
        split at hc <;> cases hc
      | none =>
        refine ⟨Response.send 200 TEXTHTML none Body.rootPage, by simp, Or.inr ?_⟩
        rcases gates_none_or_challenge hc with hg | hg
        · have := (gates_challenge_iff hc).mp hg
          rw [this.1] at hp
          cases hp
        · exact hg
    obtain ⟨r, hr, hg | hg⟩ := key
    · obtain ⟨h1, h2, h3, h4, h5⟩ := handlers_stopped hg
      rw [h1, h2, h3, h4, h5]
      simp only [ne_eq, Option.some.injEq, Prod.mk.injEq, not_and]
      exact ⟨fun _ => hr, fun _ => hr, fun _ => hr, fun _ => hr, fun _ => hr⟩
    · obtain ⟨h1, h2, h3, h4⟩ := no_challenge_of_passed hg s1
      refine ⟨?_, h1, h2, h3, h4⟩
      rcases handleClient_cases s env req with h | h | h | h <;> rw [h] <;> assumption

theorem authorization_gate_witness :
    handleRoot operatingState portalEnv (request HTTPMethod.HTTP_GET "/" "172.217.28.254" [])
      = some (operatingState, Response.requestAuthentication) :=
  ((authorization_gate operatingState portalEnv
    (request HTTPMethod.HTTP_GET "/" "172.217.28.254" [])).1 rfl).1.1.mpr
    ⟨rfl, by decide, rfl⟩

/-- C6, the claim as stated fails: a form whose only field is `use_auth=10` leaves
`use_auth` true although no field named `use_auth` has the value "1", and the form
`use_auth=1&use_auth=0` leaves it false although it has such a field. -/
theorem use_auth_not_equal_to_one :
    ((handleConfig provisioningState portalEnv
        (request HTTPMethod.HTTP_POST "/" "192.168.4.1" [("use_auth", bytesOf "10")])).map
          (fun p => p.1.config.use_auth) = some 1 ∧
      ¬ ∃ a ∈ [("use_auth", bytesOf "10")], a.1 = "use_auth" ∧ a.2 = bytesOf "1") ∧
    ((handleConfig provisioningState portalEnv
        (request HTTPMethod.HTTP_POST "/" "192.168.4.1"
          [("use_auth", bytesOf "1"), ("use_auth", bytesOf "0")])).map
          (fun p => p.1.config.use_auth) = some 0 ∧
      ∃ a ∈ [("use_auth", bytesOf "1"), ("use_auth", bytesOf "0")],
        a.1 = "use_auth" ∧ a.2 = bytesOf "1") := by
  decide

/-- C6 as amended: for every prior record and every form of fewer than 256 fields whose
string values fit the members they are copied to, a `POST /` that passes both gates is
answered and leaves `use_auth` true if and only if the form has a field named `use_auth`
and the value of the last such field begins with the character 1; a form without such a
field leaves `use_auth` false whatever it was before. -/
theorem use_auth_checkbox (s : State) (env : Env) (req : Request)
    (hg : gates s env req = none) (hw : s.config.WellSized) (hn : req.args.length < 256)
    (hf : ∀ a ∈ req.args, ValueFits a) :
    ∃ s1 r, handleConfig s env req = some (s1, r) ∧
      (s1.config.use_auth ≠ 0 ↔ ∃ v, lastUseAuth req.args = some v ∧ v.head? = some 49) ∧
      ((∀ a ∈ req.args, a.1 ≠ "use_auth") → s1.config.use_auth = 0) := by
  obtain ⟨s1, r, h1, _, hu⟩ := handleConfig_result hg hw hn hf
  refine ⟨s1, r, h1, ?_, ?_⟩
  · rw [hu]
    cases lastUseAuth req.args with
    | none => simp
    | some v =>
      simp only [Option.some.injEq, exists_eq_left', useAuthByte]
      rw [← cstrBuf_head]
      by_cases h49 : (cstrBuf v).headD 0 = 49
      · rw [if_pos h49]
        exact ⟨fun _ => h49, fun _ => by decide⟩
      · rw [if_neg h49]
        exact ⟨fun h => absurd rfl h, fun h => absurd h h49⟩
  · intro hno
    rw [hu, lastUseAuth_none hno]

theorem use_auth_checkbox_witness :
    ∃ s1 r, handleConfig provisioningState portalEnv
        (request HTTPMethod.HTTP_POST "/" "192.168.4.1"
          [("wifi_ssid", bytesOf "Home"), ("use_auth", bytesOf "1")]) = some (s1, r) ∧
      (s1.config.use_auth ≠ 0 ↔
        ∃ v, lastUseAuth [("wifi_ssid", bytesOf "Home"), ("use_auth", bytesOf "1")] = some v ∧
          v.head? = some 49) ∧
      ((∀ a ∈ [("wifi_ssid", bytesOf "Home"), ("use_auth", bytesOf "1")], a.1 ≠ "use_auth") →
        s1.config.use_auth = 0) :=
  use_auth_checkbox provisioningState portalEnv
    (request HTTPMethod.HTTP_POST "/" "192.168.4.1"
      [("wifi_ssid", bytesOf "Home"), ("use_auth", bytesOf "1")])
    (by decide) (by decide) (by decide) (by
      intro a ha off size hfo
      simp only [request, List.mem_cons, List.mem_singleton, List.not_mem_nil, or_false] at ha
      rcases ha with rfl | rfl
      · have : fieldOf "wifi_ssid" = some (0, 33) := by decide
        rw [this] at hfo
        cases hfo
        decide
      · have : fieldOf "use_auth" = none := by decide
        rw [this] at hfo
        cases hfo)

/-- C9, the code at a failing input: from the default record (every string terminated
inside its array) a `POST /` with the single field `wifi_ssid` of 34 letters A is accepted
(status 200) and leaves `wifi_ssid` as 33 letters A without a NUL, and `wifi_pswd`,
which no field named, starting with the 34th letter and the terminator. -/
theorem strcpy_overflows_wifi_ssid :
    defaultConfig.Terminated ∧ defaultConfig.WellSized ∧
    (handleConfig provisioningState portalEnv
      (request HTTPMethod.HTTP_POST "/" "192.168.4.1"
        [("wifi_ssid", List.replicate 34 65)])).map
        (fun p => (p.1.config.wifi_ssid, p.1.config.wifi_pswd.take 2, p.2,
          decide p.1.config.Terminated))
      = some (List.replicate 33 65, [65, 0], Response.send 200 "text/html" none Body.stored,
          false) := by
  decide

/-! ## Claims about the provisioning window and the NAT lifecycle -/

/-- C7: the loop of `startConfigAP` is left at an evaluation of its condition if and only
if, at that evaluation, `config.wifi_ssid` is not empty and `config.ap_ssid` is not empty
and no station is associated and (the boot reason is a soft restart or `millis() - start`,
taken in 32 bits, is at least 60000); the loop is left at the first such evaluation.  It
is never left while one of the two SSIDs is empty, whatever the time and the boot reason,
and after a soft restart it is left as soon as both SSIDs are set and no station is
associated.  Below 2^32 ms the 32-bit difference is the time since the window started. -/
theorem provisioning_window_exit (reason : rst_reason) (start : Nat) (xs : List Sample)
    (k : Nat) (hk : k < xs.length) :
    (windowOpen reason start (xs.get ⟨k, hk⟩) = false ↔
      (c_str (xs.get ⟨k, hk⟩).config.wifi_ssid ≠ [] ∧
       c_str (xs.get ⟨k, hk⟩).config.ap_ssid ≠ [] ∧
       (xs.get ⟨k, hk⟩).stationNum = 0 ∧
       (reason = rst_reason.REASON_SOFT_RESTART ∨
         60000 ≤ elapsed (xs.get ⟨k, hk⟩).millis start))) ∧
    (startConfigAP reason start xs = some k ↔
      (windowOpen reason start (xs.get ⟨k, hk⟩) = false ∧
        ∀ (j : Nat) (hj : j < xs.length), j < k →
          windowOpen reason start (xs.get ⟨j, hj⟩) = true)) ∧
    ((c_str (xs.get ⟨k, hk⟩).config.wifi_ssid = [] ∨
        c_str (xs.get ⟨k, hk⟩).config.ap_ssid = []) →
      windowOpen reason start (xs.get ⟨k, hk⟩) = true ∧
        startConfigAP reason start xs ≠ some k) ∧
    (c_str (xs.get ⟨k, hk⟩).config.wifi_ssid ≠ [] →
      c_str (xs.get ⟨k, hk⟩).config.ap_ssid ≠ [] → (xs.get ⟨k, hk⟩).stationNum = 0 →
      windowOpen rst_reason.REASON_SOFT_RESTART start (xs.get ⟨k, hk⟩) = false) ∧
    (∀ t : Nat, start < 2 ^ 32 → t < 2 ^ 32 → elapsed ((start + t) % 2 ^ 32) start = t) := by
  have hiff := windowOpen_false_iff reason start (xs.get ⟨k, hk⟩)
  have hloop := startConfigAP_some_iff reason start xs k
  refine ⟨hiff, ?_, ?_, ?_, fun t hs ht => elapsed_of_real start t hs ht⟩
  · rw [hloop]
    exact ⟨fun ⟨_, h⟩ => h, fun h => ⟨hk, h⟩⟩
  · intro hempty
    have hopen : windowOpen reason start (xs.get ⟨k, hk⟩) = true := by
      cases ho : windowOpen reason start (xs.get ⟨k, hk⟩) with
      | true => rfl
      | false =>
        obtain ⟨h1, h2, _⟩ := hiff.mp ho
        rcases hempty with h | h
        · exact absurd h h1
        · exact absurd h h2
    refine ⟨hopen, ?_⟩
    intro hs
    obtain ⟨_, h0, _⟩ := hloop.mp hs
    rw [hopen] at h0
    cases h0
  · intro h1 h2 h3
    exact (windowOpen_false_iff _ start _).mpr ⟨h1, h2, h3, Or.inl rfl⟩

theorem provisioning_window_exit_witness :
    startConfigAP rst_reason.REASON_EXT_SYS_RST 1000
      [{ config := defaultConfig, stationNum := 0, millis := 70000 },
       { config := homeConfig, stationNum := 1, millis := 80000 },
       { config := homeConfig, stationNum := 0, millis := 90000 }] = some 2 :=
  ((provisioning_window_exit rst_reason.REASON_EXT_SYS_RST 1000 _ 2 (by decide)).2.1).mpr
    (by decide)

theorem run_napt_iff (s : State) (hs : s.naptEnabled = false) (events : List Event) :
    (run s events).naptEnabled = true ↔
      ∃ pre a h post, events = pre ++ Event.gotIP a true h :: post ∧
        Event.disconnected ∉ post := by
  rw [run_napt, hs, foldl_naptAfter_iff]
  simp

theorem run_napt_last (s : State) (events : List Event) (e : Event)
    (he : e = Event.disconnected ∨ ∃ h, e = Event.gotIP true true h) :
    (run s (events ++ [e])).naptEnabled = bridged (events ++ [e]) := by
  rw [run_napt, foldl_naptAfter_last events e _ he]

/-- C3, the code at a failing input: after `setup` with the record of the scenario, one
got-IP event whose AP restart fails (`WiFi.softAP` false) while `ip_napt_enable_no`
returns `ERR_OK` leaves NAT enabled for the downstream interface, with the restart asked
for, though the last event is not a got-IP whose AP restart and NAT enable succeeded.  The
rest of the claim holds: NAT is disabled when `setup` ends and after every disconnect
event, for every record, store, value of `rebooting` and earlier events. -/
theorem napt_enabled_after_failed_ap_restart :
    (run (setup homeConfig (writeConfig homeConfig blankStore true).2)
      [Event.gotIP false true true]).naptEnabled = true ∧
    bridged [Event.gotIP false true true] = false ∧
    (run (setup homeConfig (writeConfig homeConfig blankStore true).2)
      [Event.gotIP false true true]).rebooting = true ∧
    (∀ (config : config_t) (eeprom : Store), (setup config eeprom).naptEnabled = false) ∧
    (∀ (config : config_t) (eeprom : Store) (rebooting : Bool) (events : List Event),
      (run (booted config eeprom rebooting) (events ++ [Event.disconnected])).naptEnabled
        = false) := by
  refine ⟨by decide, by decide, by decide, fun _ _ => rfl, ?_⟩
  intro config eeprom rebooting events
  rw [run_napt, List.foldl_append]
  rfl

end WiFiExt
